import Mathlib

/-!
# The task-manager page script (`task8/script.js`)

A shallow embedding of the script and the properties proved about it.

The page (`index.html`, which is not among the sources) is represented by the parts
the script touches:

* the element children of the `.container` element, where `showMessage` inserts and
  looks for messages;
* the children of `#taskList`, which `displayTasks` rewrites;
* the two form controls `#taskTitle` and `#taskDescription` of `#taskForm`.

Markup assigned to `innerHTML` is kept as the assigned string: the HTML parser of the
browser is not modelled, so a node `Node.parsed s` stands for whatever the parser
builds from `s`.  What `document.querySelector('.error, .success')` finds inside
such markup is a parameter, `StrayCount`: the selector is looked for in the whole
document, first among the children of the container and then, in document order,
in the task list, which follows them.

JavaScript strings are Lean strings (sequences of Unicode scalar values; a string
holding an unpaired surrogate is outside the model).

An `async` function is cut at its `await`s: the part run by the call itself
(`loadTasksStart`, `addTaskStart`) and the part run when the awaited request settles
(`loadTasksResume`, `addTaskResume`).  The two consecutive awaits `await fetch(..)` and
`await response.json()` are settled together by one `FetchOutcome`, since the script
does nothing observable between them.
-/

namespace TaskClient

/-! ## JavaScript values -/

/-- An exception value, as far as the script reads it: its `message`. -/
structure JSError where
  message : String
deriving DecidableEq, Repr

/-- A value produced by `response.json()` (or `undefined`, which property reads add).
A number is carried by its `Number::toString` rendering, which is all the script can
observe of it: `number "0"` is zero (both `+0` and `-0` render as `0`).
The property names of an `object` are distinct. -/
inductive JSValue where
  | undefined : JSValue
  | null : JSValue
  | bool (b : Bool) : JSValue
  | number (shown : String) : JSValue
  | string (s : String) : JSValue
  | array (items : List JSValue) : JSValue
  | object (props : List (String × JSValue)) : JSValue
deriving Repr

/-- The property names the script reads with a dot. -/
inductive Key where
  | length | title | description
deriving DecidableEq, Repr

/-- The name of a property as written in the script. -/
def Key.name : Key → String
  | .length => "length"
  | .title => "title"
  | .description => "description"

/-- Length of a string in UTF-16 code units (`String.prototype.length`). -/
def utf16Length (s : String) : Nat :=
  s.data.foldl (fun n c => n + (if c.toNat < 65536 then 1 else 2)) 0

/-- The `TypeError` of a property read on `null` or `undefined`.  The wording of
the messages of exceptions raised by the engine is that of V8; the properties
proved depend on none of it. -/
def cannotRead (what : String) (k : Key) : JSError :=
  ⟨"Cannot read properties of " ++ what ++ " (reading \x27" ++ k.name ++ "\x27)"⟩

/-- Property read `v.k` for `k` one of `length`, `title`, `description`.
Neither `Object.prototype` nor the prototypes of arrays, strings, numbers and
booleans define `title` or `description`; `length` is defined for arrays and
strings. -/
def JSValue.get (v : JSValue) (k : Key) : Except JSError JSValue :=
  match v with
  | .undefined => .error (cannotRead "undefined" k)
  | .null => .error (cannotRead "null" k)
  | .object props => .ok ((props.lookup k.name).getD .undefined)
  | .array items => .ok (if k = .length then .number (toString items.length) else .undefined)
  | .string s => .ok (if k = .length then .number (toString (utf16Length s)) else .undefined)
  | .bool _ => .ok .undefined
  | .number _ => .ok .undefined

/-- Strict equality with the number zero: `v === 0`. -/
def JSValue.isZero : JSValue → Bool
  | .number shown => shown == "0"
  | _ => false

/-- The elements `tasks.forEach(..)` visits, or the `TypeError` of the call.
Only arrays have a callable `forEach`: a value read from JSON never holds a
function, and strings, numbers and booleans inherit none. -/
def JSValue.forEachItems : JSValue → Except JSError (List JSValue)
  | .array items => .ok items
  | .undefined => .error (cannotRead "undefined" .length)
  | .null => .error (cannotRead "null" .length)
  | _ => .error ⟨"tasks.forEach is not a function"⟩

mutual
/-- Conversion `ToString(v)` of a template-literal substitution.
An object with an own property `toString` (never callable when read from JSON)
cannot be converted; an array is joined with commas. -/
def JSValue.toStr : JSValue → Except JSError String
  | .undefined => .ok "undefined"
  | .null => .ok "null"
  | .bool b => .ok (if b then "true" else "false")
  | .number shown => .ok shown
  | .string s => .ok s
  | .array items =>
    match JSValue.itemStrs items with
    | .ok strs => .ok (",".intercalate strs)
    | .error e => .error e
  | .object props =>
    if (props.lookup "toString").isSome then
      .error ⟨"Cannot convert object to primitive value"⟩
    else .ok "[object Object]"
/-- The strings `Array.prototype.join` joins: empty for `null` and `undefined`. -/
def JSValue.itemStrs : List JSValue → Except JSError (List String)
  | [] => .ok []
  | v :: rest =>
    match v with
    | .undefined => (JSValue.itemStrs rest).map (fun l => "" :: l)
    | .null => (JSValue.itemStrs rest).map (fun l => "" :: l)
    | v =>
      match JSValue.toStr v with
      | .error e => .error e
      | .ok a => (JSValue.itemStrs rest).map (fun l => a :: l)
end

/-! ## The page -/

/-- An element child of the container.  The `uid` is the identity of the element
object, by which the timer callback of `showMessage` holds on to `messageElement`. -/
structure Elem where
  uid : Nat
  tag : String
  className : String
  textContent : String
deriving DecidableEq, Repr

/-- A child of the task list. -/
inductive Node where
  /-- The nodes the HTML parser builds from markup assigned to `innerHTML`. -/
  | parsed (markup : String) : Node
  /-- An element made by `createElement` whose content was set through `innerHTML`. -/
  | element (tag className innerHTML : String) : Node
  /-- A node out of which `showMessage` has taken the first element matching
  `.error, .success`. -/
  | pruned (node : Node) : Node
deriving DecidableEq, Repr

/-- A form control: its current value and the default value `reset()` restores. -/
structure Control where
  value : String
  defaultValue : String
deriving DecidableEq, Repr

/-- The document, as far as the script reads or writes it. -/
structure Page where
  /-- Element children of `.container`, in document order. -/
  container : List Elem
  /-- Children of `#taskList`, in document order. -/
  taskList : List Node
  /-- The control `#taskTitle`. -/
  taskTitle : Control
  /-- The control `#taskDescription`. -/
  taskDescription : Control
deriving DecidableEq, Repr

/-- A request handed to `fetch`. -/
structure Request where
  method : String
  url : String
  headers : List (String × String)
  body : Option String
deriving DecidableEq, Repr

/-- What the script does to the world outside the document, in order. -/
inductive Effect where
  | preventDefault : Effect
  | fetch (req : Request) : Effect
  | consoleError (label : String) (error : JSError) : Effect
  | formReset : Effect
deriving DecidableEq, Repr

/-- A pending `setTimeout` of `showMessage`: its delay in milliseconds and the
`uid` of the `messageElement` its callback closes over. -/
structure Timer where
  delay : Nat
  target : Nat
deriving DecidableEq, Repr

/-- The state a handler runs in. -/
structure World where
  page : Page
  timers : List Timer
  nextUid : Nat
  effects : List Effect
deriving DecidableEq, Repr

/-- How an awaited request settles: `fetch` rejects, or a response arrives, whose
`json()` then yields a value or rejects. -/
inductive FetchOutcome where
  | rejected (error : JSError) : FetchOutcome
  | response (status : Nat) (json : Except JSError JSValue) : FetchOutcome

/-- Source, line 2. -/
def API_BASE_URL : String := "http://localhost:8080/api/tasks"

/-- The flag `response.ok`. -/
def responseOk (status : Nat) : Bool := 200 ≤ status && status ≤ 299

/-! ## `showMessage` -/

/-- ASCII whitespace, which separates the tokens of a `class` attribute. -/
def isClassSeparator (c : Char) : Bool :=
  c.toNat = 32 || c.toNat = 9 || c.toNat = 10 || c.toNat = 12 || c.toNat = 13

/-- Tokens of a class attribute: `cur` is the token being read. -/
def classTokens : List Char → List Char → List (List Char)
  | [], cur => if cur = [] then [] else [cur]
  | c :: cs, cur =>
    if isClassSeparator c then
      (if cur = [] then classTokens cs [] else cur :: classTokens cs [])
    else classTokens cs (cur ++ [c])

/-- The class list of an element with the given `className`. -/
def classList (className : String) : List String :=
  (classTokens className.data []).map String.mk

/-- Whether an element matches the selector `.error, .success`. -/
def Elem.isMessage (e : Elem) : Bool :=
  decide ("error" ∈ classList e.className) || decide ("success" ∈ classList e.className)

/-- What the selector `.error, .success` sees of the HTML parser of the browser,
which is not modelled: for a markup string, the number of times in a row that
`querySelector` finds a matching element in the fragment parsed from the markup and
`remove()` takes it out, until none is left.  It is zero for markup that gives no
element either class. -/
abbrev StrayCount := String → Nat

/-- Whether a child of the task list itself matches `.error, .success`. -/
def Node.selfMatches : Node → Bool
  | .parsed _ => false
  | .element _ className _ =>
    decide ("error" ∈ classList className) || decide ("success" ∈ classList className)
  | .pruned node => node.selfMatches

/-- The matching elements still to be found inside a child of the task list. -/
def Node.pending (stray : StrayCount) : Node → Nat
  | .parsed markup => stray markup
  | .element _ _ innerHTML => stray innerHTML
  | .pruned node => node.pending stray - 1

/-- The selector `.error, .success` run over the task list, and `remove()` on what
it finds: the first child, in document order, that matches or holds a matching
element; a matching child leaves the list, otherwise the element found leaves the
child. -/
def removeFirstMatch (stray : StrayCount) : List Node → List Node
  | [] => []
  | node :: rest =>
    if node.selfMatches then rest
    else if 0 < node.pending stray then Node.pruned node :: rest
    else node :: removeFirstMatch stray rest

/-- Source, lines 94-116. -/
def showMessage (stray : StrayCount) (message type : String) (w : World) : World :=
  -- const existingMessage = document.querySelector('.error, .success');
  -- if (existingMessage) existingMessage.remove();
  -- the first match in document order: a child of the container if there is one,
  -- otherwise an element of the task list
  let remaining := w.page.container.eraseP Elem.isMessage
  let taskList :=
    if w.page.container.any Elem.isMessage then w.page.taskList
    else removeFirstMatch stray w.page.taskList
  -- createElement('div'); className = type; textContent = message
  let messageElement : Elem := ⟨w.nextUid, "div", type, message⟩
  -- container.insertBefore(messageElement, container.firstChild);
  -- setTimeout(.., 3000)
  { w with
    page := { w.page with container := messageElement :: remaining, taskList := taskList }
    timers := w.timers ++ [⟨3000, messageElement.uid⟩]
    nextUid := w.nextUid + 1 }

/-- The callback of the timer of `showMessage` (source, lines 112-114):
`messageElement` is removed when it still has a parent. -/
def timerCallback (target : Nat) (w : World) : World :=
  if w.page.container.any (fun e => e.uid = target) then
    { w with page := { w.page with
        container := w.page.container.eraseP (fun e => e.uid = target) } }
  else w

/-- A pending timer fires: it leaves the pending list and its callback runs. -/
def fireTimer (t : Timer) (w : World) : World :=
  timerCallback t.target { w with timers := w.timers.erase t }

/-! ## `displayTasks` -/

/-- Assignment to `taskList.innerHTML`: the children are replaced by what the parser
builds from the markup, which for the empty string is nothing. -/
def setTaskListHTML (markup : String) (w : World) : World :=
  { w with page := { w.page with
      taskList := if markup = "" then [] else [Node.parsed markup] } }

/-- The template literal of lines 85-88, with both substitutions converted. -/
def taskMarkup (title description : String) : String :=
  "\n            <div class=\"task-title\">" ++ title ++
  "</div>\n            <div class=\"task-description\">" ++ description ++
  "</div>\n        "

/-- Evaluation of the template literal for one task: `task.title` is read and
converted, then `task.description`. -/
def taskHTML (task : JSValue) : Except JSError String :=
  match task.get .title with
  | .error e => .error e
  | .ok t =>
    match t.toStr with
    | .error e => .error e
    | .ok title =>
      match task.get .description with
      | .error e => .error e
      | .ok d =>
        match d.toStr with
        | .error e => .error e
        | .ok description => .ok (taskMarkup title description)

/-- The loop `tasks.forEach(task => ..)` of lines 82-90 over the children of the
task list: a block is appended for each task in turn; an exception ends the loop
with the blocks appended so far. -/
def appendTasks : List JSValue → List Node → Option JSError × List Node
  | [], children => (none, children)
  | task :: rest, children =>
    match taskHTML task with
    | .error e => (some e, children)
    | .ok html =>
      -- createElement('div'); className = 'task-item'; innerHTML = ..; appendChild
      appendTasks rest (children ++ [Node.element "div" "task-item" html])

/-- Source, lines 74-91.  The result is the exception thrown, if any. -/
def displayTasks (tasks : JSValue) (w : World) : Option JSError × World :=
  -- taskList.innerHTML = '';
  let w := setTaskListHTML "" w
  -- if (tasks.length === 0) { taskList.innerHTML = '<p>No tasks found.</p>'; return; }
  match tasks.get .length with
  | .error e => (some e, w)
  | .ok len =>
    if len.isZero then (none, setTaskListHTML "<p>No tasks found.</p>" w)
    else
      match tasks.forEachItems with
      | .error e => (some e, w)
      | .ok items =>
        ((appendTasks items w.page.taskList).1,
          { w with page := { w.page with taskList := (appendTasks items w.page.taskList).2 } })

/-! ## JSON text -/

/-- The quotation mark. -/
abbrev dquote : Char := Char.ofNat 34

/-- The reverse solidus. -/
abbrev backslash : Char := Char.ofNat 92

/-- Lower-case hexadecimal digit of a number below sixteen. -/
def hexDigit (n : Nat) : Char :=
  if n < 10 then Char.ofNat (48 + n) else Char.ofNat (87 + n)

/-- Escaped form of one character in `QuoteJSONString` (ECMA-262, 25.5.2.3). -/
def escapeChar (c : Char) : List Char :=
  if c.toNat = 8 then [backslash, 'b']
  else if c.toNat = 9 then [backslash, 't']
  else if c.toNat = 10 then [backslash, 'n']
  else if c.toNat = 12 then [backslash, 'f']
  else if c.toNat = 13 then [backslash, 'r']
  else if c = dquote then [backslash, dquote]
  else if c = backslash then [backslash, backslash]
  else if c.toNat < 32 then
    [backslash, 'u', '0', '0', hexDigit (c.toNat / 16), hexDigit (c.toNat % 16)]
  else [c]

/-- The characters between the quotation marks of a quoted string. -/
def escapeChars : List Char → List Char
  | [] => []
  | c :: cs => escapeChar c ++ escapeChars cs

/-- The operation `QuoteJSONString`: `JSON.stringify` of a string. -/
def quoteJSONString (s : String) : String :=
  String.mk (dquote :: escapeChars s.data ++ [dquote])

/-- The object `taskData` of lines 41-44: two string properties, `title` first. -/
structure TaskData where
  title : String
  description : String
deriving DecidableEq, Repr

/-- The text `JSON.stringify(taskData)`: the properties in creation order, no
white space. -/
def JSONstringify (taskData : TaskData) : String :=
  "\x7b" ++ quoteJSONString "title" ++ ":" ++ quoteJSONString taskData.title ++ "," ++
    quoteJSONString "description" ++ ":" ++ quoteJSONString taskData.description ++ "\x7d"

/-- The tree a JSON text denotes.  A number is kept as its literal. -/
inductive Json where
  | null : Json
  | bool (b : Bool) : Json
  | number (literal : String) : Json
  | string (s : String) : Json
  | array (items : List Json) : Json
  | object (members : List (String × Json)) : Json
deriving Repr

/-- White space between JSON tokens. -/
def isJsonSpace (c : Char) : Bool :=
  c.toNat = 32 || c.toNat = 9 || c.toNat = 10 || c.toNat = 13

/-- Drops leading white space. -/
def skipSpace : List Char → List Char
  | [] => []
  | c :: cs => if isJsonSpace c then skipSpace cs else c :: cs

/-- Value of a hexadecimal digit. -/
def hexValue (c : Char) : Option Nat :=
  if 48 ≤ c.toNat ∧ c.toNat ≤ 57 then some (c.toNat - 48)
  else if 97 ≤ c.toNat ∧ c.toNat ≤ 102 then some (c.toNat - 87)
  else if 65 ≤ c.toNat ∧ c.toNat ≤ 70 then some (c.toNat - 55)
  else none

/-- Value of four hexadecimal digits. -/
def hexValue4 (a b c d : Char) : Option Nat :=
  match hexValue a, hexValue b, hexValue c, hexValue d with
  | some x, some y, some z, some t => some (((x * 16 + y) * 16 + z) * 16 + t)
  | _, _, _, _ => none

/-- The character a one-letter escape stands for. -/
def unescape (e : Char) : Option Char :=
  if e = dquote then some dquote
  else if e = backslash then some backslash
  else if e = '/' then some '/'
  else if e = 'b' then some (Char.ofNat 8)
  else if e = 'f' then some (Char.ofNat 12)
  else if e = 'n' then some (Char.ofNat 10)
  else if e = 'r' then some (Char.ofNat 13)
  else if e = 't' then some (Char.ofNat 9)
  else none

/-- Puts a character in front of a parsed string. -/
def consChar (c : Char) : Option (List Char × List Char) → Option (List Char × List Char)
  | none => none
  | some (s, rest) => some (c :: s, rest)

/-- Reads a `\u` escape after the letter `u`: four hexadecimal digits.  The
escape of a leading surrogate is read together with the escape of the trailing
surrogate that must follow it; an unpaired surrogate denotes no Lean character and
is refused. -/
def readUnicodeEscape : List Char → Option (Char × List Char)
  | h1 :: h2 :: h3 :: h4 :: rest =>
    match hexValue4 h1 h2 h3 h4 with
    | none => none
    | some n =>
      if n < 55296 ∨ 57343 < n then some (Char.ofNat n, rest)
      else if 56320 ≤ n then none
      else
        match rest with
        | b :: u :: l1 :: l2 :: l3 :: l4 :: rest1 =>
          if b = backslash ∧ u = 'u' then
            match hexValue4 l1 l2 l3 l4 with
            | none => none
            | some m =>
              if 56320 ≤ m ∧ m ≤ 57343 then
                some (Char.ofNat (65536 + (n - 55296) * 1024 + (m - 56320)), rest1)
              else none
          else none
        | _ => none
  | _ => none

/-- Reads an escape after its reverse solidus: the character it denotes and the
text after it. -/
def readEscape : List Char → Option (Char × List Char)
  | [] => none
  | e :: rest =>
    if e = 'u' then readUnicodeEscape rest
    else
      match unescape e with
      | none => none
      | some ch => some (ch, rest)

/-- Reads a JSON string after its opening quotation mark: the characters it
denotes and the text after the closing quotation mark.  The first argument bounds
the number of characters read. -/
def parseStringBody : Nat → List Char → Option (List Char × List Char)
  | 0, _ => none
  | _ + 1, [] => none
  | fuel + 1, c :: rest =>
    if c = dquote then some ([], rest)
    else if c = backslash then
      match readEscape rest with
      | none => none
      | some (ch, rest1) => consChar ch (parseStringBody fuel rest1)
    else if c.toNat < 32 then none
    else consChar c (parseStringBody fuel rest)

/-- Reads a JSON string after its opening quotation mark.  Every character read
consumes at least one character of the text, so its length bounds their number. -/
def parseString (cs : List Char) : Option (List Char × List Char) :=
  parseStringBody cs.length cs

/-- Splits off the leading decimal digits. -/
def spanDigits : List Char → List Char × List Char
  | [] => ([], [])
  | c :: cs =>
    if c.isDigit then ((spanDigits cs).1.cons c, (spanDigits cs).2) else ([], c :: cs)

/-- Reads a JSON number literal: `-`? (`0` | nonzero digit, digits) fraction?
exponent?. -/
def parseNumber (cs : List Char) : Option (List Char × List Char) :=
  let (sign, cs1) := match cs with
    | c :: r => if c = '-' then ([c], r) else ([], cs)
    | [] => ([], cs)
  let (int, cs2) := spanDigits cs1
  if int = [] ∨ (int.head? = some '0' ∧ int.length ≠ 1) then none
  else
    let fraction : Option (List Char × List Char) := match cs2 with
      | c :: r =>
        if c = '.' then
          (if (spanDigits r).1 = [] then none else some (c :: (spanDigits r).1, (spanDigits r).2))
        else some ([], cs2)
      | [] => some ([], cs2)
    match fraction with
    | none => none
    | some (frac, cs3) =>
      match cs3 with
      | c :: r =>
        if c = 'e' ∨ c = 'E' then
          let (esign, r1) := match r with
            | s :: r2 => if s = '+' ∨ s = '-' then ([s], r2) else ([], r)
            | [] => ([], r)
          if (spanDigits r1).1 = [] then none
          else some (sign ++ int ++ frac ++ c :: esign ++ (spanDigits r1).1, (spanDigits r1).2)
        else some (sign ++ int ++ frac, cs3)
      | [] => some (sign ++ int ++ frac, cs3)

/-- Drops an expected word, as for the literals `null`, `true` and `false`. -/
def dropWord : List Char → List Char → Option (List Char)
  | [], cs => some cs
  | _ :: _, [] => none
  | x :: xs, c :: cs => if x = c then dropWord xs cs else none

/-- Defines member `k` of an object under construction: a repeated name keeps its
place and takes the later value, as `JSON.parse` does. -/
def setMember (k : String) (v : Json) : List (String × Json) → List (String × Json)
  | [] => [(k, v)]
  | (k1, v1) :: ms => if k1 = k then (k, v) :: ms else (k1, v1) :: setMember k v ms

mutual
/-- Reads one JSON value, leading white space allowed.  The first argument bounds
the number of nested calls. -/
def parseValue : Nat → List Char → Option (Json × List Char)
  | 0, _ => none
  | fuel + 1, cs =>
    match skipSpace cs with
    | [] => none
    | c :: rest =>
      if c = dquote then
        match parseString rest with
        | none => none
        | some (s, rest1) => some (Json.string (String.mk s), rest1)
      else if c = Char.ofNat 123 then
        match skipSpace rest with
        | d :: rest1 =>
          if d = Char.ofNat 125 then some (Json.object [], rest1)
          else parseMembers fuel rest []
        | [] => none
      else if c = '[' then
        match skipSpace rest with
        | d :: rest1 =>
          if d = ']' then some (Json.array [], rest1)
          else parseItems fuel rest []
        | [] => none
      else if c = 'n' then (dropWord "ull".data rest).map (fun r => (Json.null, r))
      else if c = 't' then (dropWord "rue".data rest).map (fun r => (Json.bool true, r))
      else if c = 'f' then (dropWord "alse".data rest).map (fun r => (Json.bool false, r))
      else
        match parseNumber (c :: rest) with
        | none => none
        | some (lit, rest1) => some (Json.number (String.mk lit), rest1)
/-- Reads the members of an object from the position of a member name; `acc` holds
the members read so far. -/
def parseMembers : Nat → List Char → List (String × Json) → Option (Json × List Char)
  | 0, _, _ => none
  | fuel + 1, cs, acc =>
    match skipSpace cs with
    | [] => none
    | q :: rest =>
      if q = dquote then
        match parseString rest with
        | none => none
        | some (k, rest1) =>
          match skipSpace rest1 with
          | [] => none
          | colon :: rest2 =>
            if colon = ':' then
              match parseValue fuel rest2 with
              | none => none
              | some (v, rest3) =>
                match skipSpace rest3 with
                | [] => none
                | sep :: rest4 =>
                  if sep = ',' then parseMembers fuel rest4 (setMember (String.mk k) v acc)
                  else if sep = Char.ofNat 125 then
                    some (Json.object (setMember (String.mk k) v acc), rest4)
                  else none
            else none
      else none
/-- Reads the elements of an array from the position of an element; `acc` holds
the elements read so far. -/
def parseItems : Nat → List Char → List Json → Option (Json × List Char)
  | 0, _, _ => none
  | fuel + 1, cs, acc =>
    match parseValue fuel cs with
    | none => none
    | some (v, rest) =>
      match skipSpace rest with
      | [] => none
      | sep :: rest1 =>
        if sep = ',' then parseItems fuel rest1 (acc ++ [v])
        else if sep = ']' then some (Json.array (acc ++ [v]), rest1)
        else none
end

/-- The function `JSON.parse`: one value, white space around it, nothing else.
Every nested call consumes a character at least every second time, so twice the
length of the text bounds the nesting. -/
def JSONparse (text : String) : Option Json :=
  match parseValue (2 * text.length + 2) text.data with
  | none => none
  | some (v, rest) => if skipSpace rest = [] then some v else none

/-! ## `loadTasks` and `addTask` -/

/-- The request of `fetch(API_BASE_URL)`. -/
def getRequest : Request := ⟨"GET", API_BASE_URL, [], none⟩

/-- The error of `throw new Error(..)` at lines 22 and 56. -/
def httpError (status : Nat) : JSError :=
  ⟨"HTTP error! status: " ++ toString status⟩

/-- The `catch` block of `loadTasks`, lines 28-31. -/
def loadTasksCatch (stray : StrayCount) (error : JSError) (w : World) : World :=
  showMessage stray ("Error loading tasks: " ++ error.message) "error"
    { w with effects := w.effects ++ [Effect.consoleError "Error loading tasks:" error] }

/-- Part of `loadTasks` run by the call: up to `await fetch(API_BASE_URL)`. -/
def loadTasksStart (w : World) : World :=
  { w with effects := w.effects ++ [Effect.fetch getRequest] }

/-- Part of `loadTasks` run once the request has settled, lines 21-31. -/
def loadTasksResume (stray : StrayCount) (outcome : FetchOutcome) (w : World) : World :=
  match outcome with
  | .rejected error => loadTasksCatch stray error w
  | .response status json =>
    if !responseOk status then loadTasksCatch stray (httpError status) w
    else
      match json with
      | .error error => loadTasksCatch stray error w
      | .ok tasks =>
        match displayTasks tasks w with
        | (some error, w1) => loadTasksCatch stray error w1
        | (none, w1) => showMessage stray "Tasks loaded successfully!" "success" w1

/-- Source, lines 17-32: a whole run of `loadTasks`. -/
def loadTasks (stray : StrayCount) (outcome : FetchOutcome) (w : World) : World :=
  loadTasksResume stray outcome (loadTasksStart w)

/-- The `catch` block of `addTask`, lines 67-70. -/
def addTaskCatch (stray : StrayCount) (error : JSError) (w : World) : World :=
  showMessage stray ("Error adding task: " ++ error.message) "error"
    { w with effects := w.effects ++ [Effect.consoleError "Error adding task:" error] }

/-- The call `taskForm.reset()`: each control takes its default value again. -/
def resetForm (w : World) : World :=
  { w with
    page := { w.page with
      taskTitle := { w.page.taskTitle with value := w.page.taskTitle.defaultValue }
      taskDescription :=
        { w.page.taskDescription with value := w.page.taskDescription.defaultValue } }
    effects := w.effects ++ [Effect.formReset] }

/-- The request of the `fetch` at lines 47-53. -/
def postRequest (taskData : TaskData) : Request :=
  ⟨"POST", API_BASE_URL, [("Content-Type", "application/json")], some (JSONstringify taskData)⟩

/-- Part of `addTask` run by the call, lines 36-53: up to `await fetch(..)`. -/
def addTaskStart (w : World) : World :=
  let title := w.page.taskTitle.value
  let description := w.page.taskDescription.value
  let taskData : TaskData := ⟨title, description⟩
  { w with effects := w.effects ++ [Effect.preventDefault, Effect.fetch (postRequest taskData)] }

/-- Part of `addTask` run once the request has settled, lines 55-70.  The call
`loadTasks()` is not awaited: it runs `loadTasksStart`, and the reload settles
later. -/
def addTaskResume (stray : StrayCount) (outcome : FetchOutcome) (w : World) : World :=
  match outcome with
  | .rejected error => addTaskCatch stray error w
  | .response status json =>
    if !responseOk status then addTaskCatch stray (httpError status) w
    else
      match json with
      | .error error => addTaskCatch stray error w
      | .ok _newTask =>
        loadTasksStart (resetForm (showMessage stray "Task added successfully!" "success" w))

/-- The exception a request ends in, if it does not succeed: the rejection of
`fetch`, the error thrown for a status outside 200..299, or the rejection of
`json()`. -/
def FetchOutcome.failure : FetchOutcome → Option JSError
  | .rejected error => some error
  | .response status json =>
    if !responseOk status then some (httpError status)
    else
      match json with
      | .error error => some error
      | .ok _ => none

/-- A request succeeds when it ends in no exception. -/
def FetchOutcome.succeeded (outcome : FetchOutcome) : Bool := outcome.failure.isNone

/-- Source, lines 35-71: a whole run of `addTask`, up to the point where its own
promise settles.  After a successful POST the reload it has started is still
pending. -/
def addTask (stray : StrayCount) (post : FetchOutcome) (w : World) : World :=
  addTaskResume stray post (addTaskStart w)

/-- The states of a run of `addTask`: after the call, after the POST has settled
and, when it succeeded, after the GET of the reload has settled. -/
def addTaskRun (stray : StrayCount) (post get : FetchOutcome) (w : World) : List World :=
  if post.succeeded then
    [addTaskStart w, addTask stray post w, loadTasksResume stray get (addTask stray post w)]
  else [addTaskStart w, addTask stray post w]

/-- One turn of the event loop on the page: a part of a handler runs, for whatever
outcome of its request, or a pending timer fires. -/
inductive Step (stray : StrayCount) : World → World → Prop where
  | loadStart (w : World) : Step stray w (loadTasksStart w)
  | loadResume (outcome : FetchOutcome) (w : World) :
    Step stray w (loadTasksResume stray outcome w)
  | addStart (w : World) : Step stray w (addTaskStart w)
  | addResume (outcome : FetchOutcome) (w : World) :
    Step stray w (addTaskResume stray outcome w)
  | fire (t : Timer) (w : World) : Step stray w (fireTimer t w)

/-! ## Vocabulary of the statements -/

/-- The messages displayed: the children of the container matching
`.error, .success`. -/
def messages (w : World) : List Elem := w.page.container.filter Elem.isMessage

/-- A task block: an element of class `task-item`. -/
def Node.isTaskBlock : Node → Bool
  | .element _ className _ => decide ("task-item" ∈ classList className)
  | .parsed _ => false
  | .pruned node => node.isTaskBlock

/-- The placeholder of an empty list. -/
def placeholder : Node := Node.parsed "<p>No tasks found.</p>"

/-- A task object whose `title` and `description` are the given strings; it may
have further properties. -/
def IsTask (v : JSValue) (title description : String) : Prop :=
  ∃ props, v = JSValue.object props ∧
    props.lookup "title" = some (JSValue.string title) ∧
    props.lookup "description" = some (JSValue.string description)

/-- The block `displayTasks` makes for a task. -/
def taskBlock (text : String × String) : Node :=
  Node.element "div" "task-item" (taskMarkup text.1 text.2)

/-- Successive calls of `showMessage`, each given as message and type. -/
def showMessages (stray : StrayCount) (calls : List (String × String)) (w : World) : World :=
  calls.foldl (fun w call => showMessage stray call.1 call.2 w) w

/-- No child of the task list matches `.error, .success` or holds an element that
does: the selector of `showMessage` finds nothing in the list. -/
def Quiet (stray : StrayCount) (taskList : List Node) : Prop :=
  ∀ node ∈ taskList, node.selfMatches = false ∧ node.pending stray = 0

/-- A parser view for pages whose markup gives no element the class `error` or
`success`. -/
def noStray : StrayCount := fun _ => 0

/-- A title whose markup makes an element of class `success`. -/
def strayTitle : String := "<b class=\"success\">done</b>"

/-- A parser view that finds the one element of class `success` in the block
rendered for the task titled `strayTitle` with description `d`, and nothing in
other markup. -/
def oneStray : StrayCount :=
  fun markup => if markup = taskMarkup strayTitle "d" then 1 else 0

/-- Element identities are fresh: every element of the container was numbered
before `nextUid`. -/
def FreshUids (w : World) : Prop := ∀ e ∈ w.page.container, e.uid < w.nextUid

/-- The task whose title is `strayTitle`. -/
def strayTask : JSValue :=
  JSValue.object [("title", JSValue.string strayTitle), ("description", JSValue.string "d")]

/-- A page as first loaded: nothing displayed, the form filled in. -/
def freshPage : World :=
  ⟨⟨[], [], ⟨"Buy milk", ""⟩, ⟨"2%  gallon", ""⟩⟩, [], 0, []⟩

/-- A page with no message displayed whose task list holds the block rendered for
`strayTask`: the one reached from `freshPage` by a load of the empty list, a
second load answered with `strayTask` while the first message is still shown, and
the firing of both timers. -/
def strayPage : World :=
  ⟨⟨[], [taskBlock (strayTitle, "d")], ⟨"Buy milk", ""⟩, ⟨"2%  gallon", ""⟩⟩, [], 2,
    [Effect.fetch getRequest, Effect.fetch getRequest]⟩

/-- The all-or-nothing reading of `loadTasks`: after the run exactly one message
is displayed, and either it is the success message and the task list is the one
`displayTasks` makes of the parsed body, or it is an error message and the task
list is the one before the run. -/
def AllOrNothing (stray : StrayCount) (outcome : FetchOutcome) (w : World) : Prop :=
  ∃ m, messages (loadTasks stray outcome w) = [m] ∧
    ((m.className = "success" ∧ m.textContent = "Tasks loaded successfully!" ∧
        ∃ status tasks, outcome = FetchOutcome.response status (Except.ok tasks) ∧
          (loadTasks stray outcome w).page.taskList =
            (displayTasks tasks w).2.page.taskList) ∨
      (m.className = "error" ∧ (loadTasks stray outcome w).page.taskList = w.page.taskList))

/-! ## Auxiliary facts -/

theorem toDigitsCore_length_ge (b : Nat) :
    ∀ (f n : Nat) (ds : List Char), ds.length ≤ (Nat.toDigitsCore b f n ds).length := by
  intro f
  induction f with
  | zero => intro n ds; simp [Nat.toDigitsCore]
  | succ f ih =>
    intro n ds
    simp only [Nat.toDigitsCore]
    split
    · simp
    · exact Nat.le_trans (by simp) (ih _ _)

theorem toDigitsCore_length_gt (b : Nat) (f n : Nat) (ds : List Char) :
    ds.length + 1 ≤ (Nat.toDigitsCore b (f + 1) n ds).length := by
  simp only [Nat.toDigitsCore]
  split
  · simp
  · exact Nat.le_trans (by simp) (toDigitsCore_length_ge b _ _ _)

theorem digitChar_eq_zero (n : Nat) (h : n < 10) (hd : Nat.digitChar n = Char.ofNat 48) :
    n = 0 := by
  interval_cases n <;> first | rfl | (exact absurd hd (by decide))

/-- A number rendered as `0` is zero. -/
theorem toString_eq_zero (n : Nat) (h : toString n = "0") : n = 0 := by
  have h1 : Nat.toDigits 10 n = [Char.ofNat 48] := by
    have : (Nat.toDigits 10 n).asString = "0" := h
    have h2 := congrArg String.data this
    simpa [List.asString] using h2
  unfold Nat.toDigits at h1
  simp only [Nat.toDigitsCore] at h1
  by_cases hdiv : n / 10 = 0
  · simp only [hdiv, if_true] at h1
    have hlt : n < 10 := by omega
    have hmod : n % 10 = n := Nat.mod_eq_of_lt hlt
    rw [hmod] at h1
    exact digitChar_eq_zero n hlt (by simpa using h1)
  · simp only [hdiv, if_false] at h1
    have hn : n = (n - 1) + 1 := by omega
    have hlen := toDigitsCore_length_gt 10 (n - 1) (n / 10) [Nat.digitChar (n % 10)]
    rw [← hn, h1] at hlen
    simp at hlen

theorem isZero_length (items : List JSValue) :
    (JSValue.number (toString items.length)).isZero = items.isEmpty := by
  cases items with
  | nil => rfl
  | cons a l =>
    simp only [JSValue.isZero, List.length_cons, List.isEmpty_cons, beq_eq_false_iff_ne, ne_eq]
    intro h
    have := toString_eq_zero _ h
    omega

theorem taskHTML_of_isTask (v : JSValue) (t d : String) (h : IsTask v t d) :
    taskHTML v = Except.ok (taskMarkup t d) := by
  obtain ⟨props, rfl, ht, hd⟩ := h
  simp [taskHTML, JSValue.get, Key.name, ht, hd, JSValue.toStr]

theorem appendTasks_tasks (tasks : List JSValue) (texts : List (String × String))
    (h : List.Forall₂ (fun v td => IsTask v td.1 td.2) tasks texts) (children : List Node) :
    appendTasks tasks children = (none, children ++ texts.map taskBlock) := by
  induction h generalizing children with
  | nil => simp [appendTasks]
  | cons hv _ ih =>
    simp only [appendTasks, taskHTML_of_isTask _ _ _ hv, ih, List.map_cons, taskBlock,
      List.append_assoc, List.singleton_append]

theorem filter_eraseP_self {α : Type} (p : α → Bool) (l : List α) :
    (l.eraseP p).filter p = (l.filter p).tail := by
  induction l with
  | nil => rfl
  | cons a l ih =>
    by_cases h : p a = true
    · simp [h]
    · simp [h, ih]

theorem isMessage_error (uid : Nat) (tag text : String) :
    Elem.isMessage ⟨uid, tag, "error", text⟩ = true := by rfl

theorem isMessage_success (uid : Nat) (tag text : String) :
    Elem.isMessage ⟨uid, tag, "success", text⟩ = true := by rfl

/-- The messages displayed after `showMessage`: the new one replaces the first of
the old ones. -/
theorem messages_showMessage (stray : StrayCount) (message type : String) (w : World)
    (htype : type = "success" ∨ type = "error") :
    messages (showMessage stray message type w) =
      ⟨w.nextUid, "div", type, message⟩ :: (messages w).tail := by
  have hnew : Elem.isMessage ⟨w.nextUid, "div", type, message⟩ = true := by
    rcases htype with rfl | rfl
    · exact isMessage_success _ _ _
    · exact isMessage_error _ _ _
  simp [messages, showMessage, hnew, filter_eraseP_self]

theorem messages_showMessage_single (stray : StrayCount) (message type : String) (w : World)
    (htype : type = "success" ∨ type = "error") (hw : (messages w).length ≤ 1) :
    messages (showMessage stray message type w) = [⟨w.nextUid, "div", type, message⟩] := by
  rw [messages_showMessage stray message type w htype]
  have : (messages w).tail = [] := by
    cases h : messages w with
    | nil => rfl
    | cons a l =>
      rw [h] at hw
      cases l with
      | nil => rfl
      | cons b l => simp at hw
  rw [this]

theorem showMessages_append (stray : StrayCount) (calls : List (String × String))
    (call : String × String) (w : World) :
    showMessages stray (calls ++ [call]) w =
      showMessage stray call.1 call.2 (showMessages stray calls w) := by
  simp [showMessages, List.foldl_append]

theorem messages_showMessages_le (stray : StrayCount) (calls : List (String × String))
    (hcalls : ∀ c ∈ calls, c.2 = "success" ∨ c.2 = "error") :
    ∀ w : World, (messages w).length ≤ 1 →
      (messages (showMessages stray calls w)).length ≤ 1 := by
  induction calls with
  | nil => intro w hw; exact hw
  | cons c cs ih =>
    intro w hw
    have hc := hcalls c (List.mem_cons_self _ _)
    have hstep : (messages (showMessage stray c.1 c.2 w)).length ≤ 1 := by
      rw [messages_showMessage_single stray c.1 c.2 w hc hw]; simp
    exact ih (fun d hd => hcalls d (List.mem_cons_of_mem _ hd)) _ hstep

theorem nextUid_showMessages (stray : StrayCount) (calls : List (String × String)) :
    ∀ w : World, (showMessages stray calls w).nextUid = w.nextUid + calls.length := by
  induction calls with
  | nil => intro w; rfl
  | cons c cs ih =>
    intro w
    have h := ih (showMessage stray c.1 c.2 w)
    simp only [showMessages, List.foldl_cons] at h ⊢
    rw [h]
    simp only [showMessage, List.length_cons]
    omega

/-- The effects recorded so far do not influence `displayTasks`. -/
theorem displayTasks_effects (tasks : JSValue) (effects : List Effect) (w : World) :
    displayTasks tasks { w with effects := effects } =
      ((displayTasks tasks w).1, { (displayTasks tasks w).2 with effects := effects }) := by
  cases hlen : tasks.get Key.length with
  | error e => simp only [displayTasks, hlen]; rfl
  | ok len =>
    by_cases hz : len.isZero = true
    · simp only [displayTasks, hlen, hz, if_true]; rfl
    · cases hitems : tasks.forEachItems with
      | error e => simp only [displayTasks, hlen, hz, hitems]; rfl
      | ok items => simp only [displayTasks, hlen, hz, hitems]; rfl

/-- The procedure `displayTasks` touches nothing but the task list. -/
theorem displayTasks_frame (tasks : JSValue) (w : World) :
    (displayTasks tasks w).2 =
      { w with page := { w.page with taskList := (displayTasks tasks w).2.page.taskList } } := by
  cases hlen : tasks.get Key.length with
  | error e => simp only [displayTasks, hlen]; rfl
  | ok len =>
    by_cases hz : len.isZero = true
    · simp only [displayTasks, hlen, hz, if_true]; rfl
    · cases hitems : tasks.forEachItems with
      | error e => simp only [displayTasks, hlen, hz, hitems]; rfl
      | ok items => simp only [displayTasks, hlen, hz, hitems]; rfl

/-- The selector of `showMessage` takes nothing out of a quiet task list. -/
theorem removeFirstMatch_quiet (stray : StrayCount) (taskList : List Node)
    (h : Quiet stray taskList) : removeFirstMatch stray taskList = taskList := by
  induction taskList with
  | nil => rfl
  | cons node rest ih =>
    have hnode := h node (List.mem_cons_self _ _)
    have hrest : Quiet stray rest := fun n hn => h n (List.mem_cons_of_mem _ hn)
    simp [removeFirstMatch, hnode.1, hnode.2, ih hrest]

/-- The task list after `showMessage`: untouched when a message is displayed, which
the selector finds first, or when the list is quiet. -/
theorem taskList_showMessage (stray : StrayCount) (message type : String) (w : World)
    (h : messages w ≠ [] ∨ Quiet stray w.page.taskList) :
    (showMessage stray message type w).page.taskList = w.page.taskList := by
  by_cases hany : w.page.container.any Elem.isMessage = true
  · simp [showMessage, hany]
  · rcases h with h | h
    · exfalso
      apply h
      simp only [messages, List.filter_eq_nil_iff]
      intro e he hmsg
      exact hany (List.any_eq_true.2 ⟨e, he, hmsg⟩)
    · simp [showMessage, hany, removeFirstMatch_quiet stray _ h]

/-- The `catch` block of `loadTasks`, seen from the page. -/
theorem loadTasksCatch_spec (stray : StrayCount) (error : JSError) (w : World)
    (hw : (messages w).length ≤ 1) :
    messages (loadTasksCatch stray error w) =
      [⟨w.nextUid, "div", "error", "Error loading tasks: " ++ error.message⟩] ∧
    (loadTasksCatch stray error w).page.taskTitle = w.page.taskTitle ∧
    (loadTasksCatch stray error w).page.taskDescription = w.page.taskDescription ∧
    (loadTasksCatch stray error w).effects =
      w.effects ++ [Effect.consoleError "Error loading tasks:" error] := by
  refine ⟨?_, rfl, rfl, rfl⟩
  exact messages_showMessage_single _ _ _ _ (Or.inr rfl) hw

/-- The `catch` block of `addTask`, seen from the page. -/
theorem addTaskCatch_spec (stray : StrayCount) (error : JSError) (w : World)
    (hw : (messages w).length ≤ 1) :
    messages (addTaskCatch stray error w) =
      [⟨w.nextUid, "div", "error", "Error adding task: " ++ error.message⟩] ∧
    (addTaskCatch stray error w).page.taskTitle = w.page.taskTitle ∧
    (addTaskCatch stray error w).page.taskDescription = w.page.taskDescription ∧
    (addTaskCatch stray error w).effects =
      w.effects ++ [Effect.consoleError "Error adding task:" error] := by
  refine ⟨?_, rfl, rfl, rfl⟩
  exact messages_showMessage_single _ _ _ _ (Or.inr rfl) hw

theorem responseOk_iff (status : Nat) :
    responseOk status = true ↔ 200 ≤ status ∧ status ≤ 299 := by
  simp [responseOk]

theorem container_displayTasks (tasks : JSValue) (w : World) :
    (displayTasks tasks w).2.page.container = w.page.container :=
  congrArg (fun x => x.page.container) (displayTasks_frame tasks w)

theorem nextUid_displayTasks (tasks : JSValue) (w : World) :
    (displayTasks tasks w).2.nextUid = w.nextUid :=
  congrArg (fun x => x.nextUid) (displayTasks_frame tasks w)

/-- A failed request takes `loadTasks` to its `catch` block at once. -/
theorem loadTasks_of_failure (stray : StrayCount) (outcome : FetchOutcome) (error : JSError)
    (w : World) (h : outcome.failure = some error) :
    loadTasks stray outcome w = loadTasksCatch stray error (loadTasksStart w) := by
  cases outcome with
  | rejected e1 =>
    simp only [FetchOutcome.failure, Option.some.injEq] at h
    simp [loadTasks, loadTasksResume, h]
  | response status json =>
    by_cases hok : responseOk status = true
    · cases json with
      | error e1 =>
        simp only [FetchOutcome.failure, hok, Bool.not_true, Bool.false_eq_true, if_false,
          Option.some.injEq] at h
        simp [loadTasks, loadTasksResume, hok, h]
      | ok v => simp [FetchOutcome.failure, hok] at h
    · simp only [Bool.not_eq_true] at hok
      simp only [FetchOutcome.failure, hok, Bool.not_false, if_true, Option.some.injEq] at h
      simp [loadTasks, loadTasksResume, hok, h]

/-- A parsed body on which `displayTasks` completes. -/
theorem loadTasks_of_completed (stray : StrayCount) (status : Nat) (tasks : JSValue)
    (w : World) (hok : responseOk status = true) (h : (displayTasks tasks w).1 = none) :
    loadTasks stray (FetchOutcome.response status (Except.ok tasks)) w =
      showMessage stray "Tasks loaded successfully!" "success"
        { (displayTasks tasks w).2 with effects := w.effects ++ [Effect.fetch getRequest] } := by
  simp only [loadTasks, loadTasksResume, hok, loadTasksStart, displayTasks_effects, h]
  rfl

/-- A parsed body on which `displayTasks` throws. -/
theorem loadTasks_of_thrown (stray : StrayCount) (status : Nat) (tasks : JSValue)
    (error : JSError) (w : World)
    (hok : responseOk status = true) (h : (displayTasks tasks w).1 = some error) :
    loadTasks stray (FetchOutcome.response status (Except.ok tasks)) w =
      loadTasksCatch stray error
        { (displayTasks tasks w).2 with effects := w.effects ++ [Effect.fetch getRequest] } := by
  simp only [loadTasks, loadTasksResume, hok, loadTasksStart, displayTasks_effects, h]
  rfl

theorem displayTasks_completes_of_tasks (tasks : List JSValue) (texts : List (String × String))
    (h : List.Forall₂ (fun v td => IsTask v td.1 td.2) tasks texts) (w : World) :
    (displayTasks (JSValue.array tasks) w).1 = none := by
  by_cases hempty : tasks.isEmpty = true
  · simp [displayTasks, JSValue.get, isZero_length, hempty]
  · simp only [displayTasks, JSValue.get, if_true, isZero_length, hempty,
      Bool.false_eq_true, if_false, JSValue.forEachItems]
    rw [appendTasks_tasks tasks texts h]

theorem hex_roundtrip : ∀ n, n < 32 →
    hexValue4 '0' '0' (hexDigit (n / 16)) (hexDigit (n % 16)) = some n := by decide

/-- One step of the string reader undoes the escape of one character. -/
theorem parseStringBody_escapeChar (c : Char) (fuel : Nat) (tail : List Char) :
    parseStringBody (fuel + 1) (escapeChar c ++ tail) =
      consChar c (parseStringBody fuel tail) := by
  have hc : Char.ofNat c.toNat = c := Char.ofNat_toNat c
  have hspecial : ∀ (n : Nat) (e : Char), escapeChar (Char.ofNat n) = [backslash, e] →
      unescape e = some (Char.ofNat n) → e ≠ 'u' → c.toNat = n →
      parseStringBody (fuel + 1) (escapeChar c ++ tail) =
        consChar c (parseStringBody fuel tail) := by
    intro n e hesc hun hu hn
    rw [← hc, hn, hesc]
    have hbd : backslash ≠ dquote := by decide
    show parseStringBody (fuel + 1) (backslash :: e :: tail) = _
    simp only [parseStringBody, readEscape, hun, hu, hbd, if_false, if_true]
  by_cases h8 : c.toNat = 8
  · exact hspecial 8 'b' (by decide) (by decide) (by decide) h8
  by_cases h9 : c.toNat = 9
  · exact hspecial 9 't' (by decide) (by decide) (by decide) h9
  by_cases h10 : c.toNat = 10
  · exact hspecial 10 'n' (by decide) (by decide) (by decide) h10
  by_cases h12 : c.toNat = 12
  · exact hspecial 12 'f' (by decide) (by decide) (by decide) h12
  by_cases h13 : c.toNat = 13
  · exact hspecial 13 'r' (by decide) (by decide) (by decide) h13
  by_cases hq : c = dquote
  · exact hspecial 34 dquote (by decide) (by decide) (by decide) (by rw [hq]; decide)
  by_cases hb : c = backslash
  · exact hspecial 92 backslash (by decide) (by decide) (by decide) (by rw [hb]; decide)
  by_cases hlt : c.toNat < 32
  · simp only [escapeChar, h8, h9, h10, h12, h13, hq, hb, hlt, if_false, if_true]
    have hbd : backslash ≠ dquote := by decide
    have h1 : c.toNat < 55296 ∨ 57343 < c.toNat := Or.inl (by omega)
    show parseStringBody (fuel + 1) (backslash :: 'u' :: '0' :: '0' ::
      hexDigit (c.toNat / 16) :: hexDigit (c.toNat % 16) :: tail) = _
    simp only [parseStringBody, readEscape, readUnicodeEscape, hbd, if_false, if_true]
    rw [hex_roundtrip c.toNat hlt]
    simp only [h1, if_true, hc]
  · simp only [escapeChar, h8, h9, h10, h12, h13, hq, hb, hlt, if_false, if_true]
    show parseStringBody (fuel + 1) (c :: tail) = _
    simp only [parseStringBody, hq, hb, hlt, if_false]

theorem parseStringBody_escapeChars (s : List Char) :
    ∀ (fuel : Nat) (rest : List Char), s.length + 1 ≤ fuel →
      parseStringBody fuel (escapeChars s ++ dquote :: rest) = some (s, rest) := by
  induction s with
  | nil =>
    intro fuel rest h
    obtain ⟨k, rfl⟩ : ∃ k, fuel = k + 1 := ⟨fuel - 1, by simp at h; omega⟩
    simp [escapeChars, parseStringBody]
  | cons c s ih =>
    intro fuel rest h
    obtain ⟨k, rfl⟩ : ∃ k, fuel = k + 1 := ⟨fuel - 1, by omega⟩
    simp only [escapeChars, List.append_assoc]
    rw [parseStringBody_escapeChar, ih k rest (by simpa using h)]
    rfl

theorem length_escapeChars (s : List Char) : s.length ≤ (escapeChars s).length := by
  induction s with
  | nil => simp [escapeChars]
  | cons c s ih =>
    have : 1 ≤ (escapeChar c).length := by
      unfold escapeChar
      repeat' split
      all_goals simp
    simp only [escapeChars, List.length_append, List.length_cons]
    omega

/-- Reading back a quoted string. -/
theorem parseString_quote (s : String) (rest : List Char) :
    parseString (escapeChars s.data ++ dquote :: rest) = some (s.data, rest) := by
  apply parseStringBody_escapeChars
  have := length_escapeChars s.data
  simp only [List.length_append, List.length_cons]
  omega

theorem skipSpace_cons (c : Char) (cs : List Char) (h : isJsonSpace c = false) :
    skipSpace (c :: cs) = c :: cs := by
  simp [skipSpace, h]

/-- Reading back a quoted string as a value. -/
theorem parseValue_quote (fuel : Nat) (s : String) (rest : List Char) :
    parseValue (fuel + 1) (dquote :: (escapeChars s.data ++ dquote :: rest)) =
      some (Json.string s, rest) := by
  simp only [parseValue, skipSpace_cons dquote _ (by decide), if_true, parseString_quote]

/-- Reading back one member whose value is a string. -/
theorem parseMembers_quote (fuel : Nat) (k v : String) (sep : Char) (rest : List Char)
    (acc : List (String × Json)) (hsep : isJsonSpace sep = false) :
    parseMembers (fuel + 2)
      (dquote :: (escapeChars k.data ++ dquote :: ':' ::
        dquote :: (escapeChars v.data ++ dquote :: sep :: rest))) acc =
      if sep = ',' then parseMembers (fuel + 1) rest (setMember k (Json.string v) acc)
      else if sep = Char.ofNat 125 then some (Json.object (setMember k (Json.string v) acc), rest)
      else none := by
  simp only [parseMembers, skipSpace_cons dquote _ (by decide), if_true, parseString_quote,
    skipSpace_cons ':' _ (by decide), parseValue_quote, skipSpace_cons sep _ hsep]

theorem JSONstringify_data (taskData : TaskData) :
    (JSONstringify taskData).data =
      Char.ofNat 123 :: dquote :: (escapeChars "title".data ++ dquote :: ':' ::
        dquote :: (escapeChars taskData.title.data ++ dquote :: ',' ::
        dquote :: (escapeChars "description".data ++ dquote :: ':' ::
        dquote :: (escapeChars taskData.description.data ++
          dquote :: Char.ofNat 125 :: [])))) := by
  simp [JSONstringify, quoteJSONString, String.data_append]

theorem JSONparse_stringify (taskData : TaskData) :
    JSONparse (JSONstringify taskData) =
      some (Json.object [("title", Json.string taskData.title),
        ("description", Json.string taskData.description)]) := by
  have hdata := JSONstringify_data taskData
  have hlen : 1 ≤ (JSONstringify taskData).length := by
    simp only [String.length, hdata, List.length_cons]; omega
  obtain ⟨k, hk⟩ : ∃ k, 2 * (JSONstringify taskData).length + 2 = k + 4 :=
    ⟨2 * (JSONstringify taskData).length - 2, by omega⟩
  simp only [JSONparse, hk, hdata]
  have hval : parseValue (k + 4)
      (Char.ofNat 123 :: dquote :: (escapeChars "title".data ++ dquote :: ':' ::
        dquote :: (escapeChars taskData.title.data ++ dquote :: ',' ::
        dquote :: (escapeChars "description".data ++ dquote :: ':' ::
        dquote :: (escapeChars taskData.description.data ++
          dquote :: Char.ofNat 125 :: []))))) =
      some (Json.object [("title", Json.string taskData.title),
        ("description", Json.string taskData.description)], []) := by
    rw [parseValue]
    simp only [skipSpace_cons (Char.ofNat 123) _ (by decide), skipSpace_cons dquote _ (by decide)]
    have h1 : Char.ofNat 123 ≠ dquote := by decide
    have h2 : dquote ≠ Char.ofNat 125 := by decide
    simp only [h1, h2, if_false, if_true]
    rw [parseMembers_quote (k + 1) "title" taskData.title ',' _ [] (by decide)]
    simp only [if_true]
    rw [parseMembers_quote k "description" taskData.description (Char.ofNat 125) _ _ (by decide)]
    have h3 : Char.ofNat 125 ≠ ',' := by decide
    simp only [h3, if_false, if_true, setMember]
    have h4 : ¬ ("title" = "description") := by decide
    simp only [h4, if_false]
  rw [hval]
  simp [skipSpace]

/-- At most one message displayed is an invariant of the page: every turn of the
event loop keeps it. -/
theorem step_messages_le (stray : StrayCount) (w w1 : World) (hstep : Step stray w w1)
    (hw : (messages w).length ≤ 1) : (messages w1).length ≤ 1 := by
  have hshow : ∀ (message type : String) (w2 : World), (type = "success" ∨ type = "error") →
      (messages w2).length ≤ 1 → (messages (showMessage stray message type w2)).length ≤ 1 := by
    intro message type w2 htype h2
    rw [messages_showMessage_single stray message type w2 htype h2]; simp
  cases hstep with
  | loadStart => exact hw
  | addStart => exact hw
  | fire t =>
    simp only [fireTimer, timerCallback]
    split
    · exact Nat.le_trans ((List.eraseP_sublist _).filter _).length_le hw
    · exact hw
  | loadResume outcome =>
    cases outcome with
    | rejected e => exact hshow _ _ _ (Or.inr rfl) hw
    | response status json =>
      simp only [loadTasksResume]
      split
      · exact hshow _ _ _ (Or.inr rfl) hw
      · cases json with
        | error e => exact hshow _ _ _ (Or.inr rfl) hw
        | ok tasks =>
          have hd : (messages (displayTasks tasks w).2).length ≤ 1 := by
            simp only [messages, container_displayTasks]; exact hw
          cases h : displayTasks tasks w with
          | mk r w2 =>
            rw [h] at hd
            cases r with
            | none => simp only [h]; exact hshow _ _ _ (Or.inl rfl) hd
            | some e => simp only [h]; exact hshow _ _ _ (Or.inr rfl) hd
  | addResume outcome =>
    cases outcome with
    | rejected e => exact hshow _ _ _ (Or.inr rfl) hw
    | response status json =>
      simp only [addTaskResume]
      split
      · exact hshow _ _ _ (Or.inr rfl) hw
      · cases json with
        | error e => exact hshow _ _ _ (Or.inr rfl) hw
        | ok newTask => exact hshow _ _ _ (Or.inl rfl) hw

/-- The body of a successful POST response is not read: runs of `addTask` that
differ in it pass through the same states. -/
theorem addTaskRun_body_independent (stray : StrayCount) (status1 status2 : Nat)
    (body1 body2 : JSValue) (get : FetchOutcome) (w : World)
    (h1 : 200 ≤ status1 ∧ status1 ≤ 299) (h2 : 200 ≤ status2 ∧ status2 ≤ 299) :
    addTaskRun stray (FetchOutcome.response status1 (Except.ok body1)) get w =
      addTaskRun stray (FetchOutcome.response status2 (Except.ok body2)) get w := by
  have hrun : ∀ (status : Nat) (body : JSValue), (200 ≤ status ∧ status ≤ 299) →
      addTaskRun stray (FetchOutcome.response status (Except.ok body)) get w =
      [addTaskStart w,
       loadTasksStart (resetForm
         (showMessage stray "Task added successfully!" "success" (addTaskStart w))),
       loadTasksResume stray get (loadTasksStart (resetForm
         (showMessage stray "Task added successfully!" "success" (addTaskStart w))))] := by
    intro status body h
    have hok : responseOk status = true := (responseOk_iff status).2 h
    simp [addTaskRun, addTask, FetchOutcome.succeeded, FetchOutcome.failure, addTaskResume, hok]
  rw [hrun status1 body1 h1, hrun status2 body2 h2]

/-- The loop of `displayTasks` when a task cannot be rendered: the blocks of the
tasks before it stay appended, and the exception ends the loop. -/
theorem appendTasks_thrown (tasks : List JSValue) (texts : List (String × String))
    (bad : JSValue) (rest : List JSValue) (error : JSError)
    (h : List.Forall₂ (fun v td => IsTask v td.1 td.2) tasks texts)
    (hbad : taskHTML bad = Except.error error) (children : List Node) :
    appendTasks (tasks ++ bad :: rest) children =
      (some error, children ++ texts.map taskBlock) := by
  induction h generalizing children with
  | nil => simp [appendTasks, hbad]
  | cons hv _ ih =>
    rw [List.cons_append, appendTasks]
    simp only [taskHTML_of_isTask _ _ _ hv]
    rw [ih]
    simp [taskBlock]

/-- The task list `displayTasks` leaves for an array of task objects. -/
theorem taskList_displayTasks_of_tasks (tasks : List JSValue) (texts : List (String × String))
    (h : List.Forall₂ (fun v td => IsTask v td.1 td.2) tasks texts) (w : World) :
    (displayTasks (JSValue.array tasks) w).2.page.taskList =
      if tasks.isEmpty then [placeholder] else texts.map taskBlock := by
  by_cases hempty : tasks.isEmpty = true
  · simp [displayTasks, JSValue.get, isZero_length, hempty, setTaskListHTML, placeholder]
  · simp only [displayTasks, JSValue.get, if_true, isZero_length, hempty,
      Bool.false_eq_true, if_false, JSValue.forEachItems]
    rw [appendTasks_tasks tasks texts h]
    simp [setTaskListHTML]

/-- A list of rendered tasks is quiet when the markup of no task makes an element
of class `error` or `success`. -/
theorem quiet_taskBlocks (stray : StrayCount) (texts : List (String × String))
    (h : ∀ td ∈ texts, stray (taskMarkup td.1 td.2) = 0) :
    Quiet stray (texts.map taskBlock) := by
  intro node hnode
  obtain ⟨td, htd, rfl⟩ := List.mem_map.1 hnode
  exact ⟨by rfl, h td htd⟩

/-! ## Properties -/

/-- C1: for a non-empty array of task objects with string titles and descriptions,
and whatever the task list held before, `displayTasks` completes and leaves the
task list holding exactly one block of class `task-item` per task, in the order of
the tasks, the block of a task holding its title and its description inside the
markup of lines 85-88; nothing of the prior content is kept. -/
theorem displayTasks_renders_tasks (tasks : List JSValue) (texts : List (String × String))
    (htasks : List.Forall₂ (fun v td => IsTask v td.1 td.2) tasks texts)
    (hne : tasks ≠ []) (w : World) :
    (displayTasks (JSValue.array tasks) w).1 = none ∧
    (displayTasks (JSValue.array tasks) w).2 =
      { w with page := { w.page with taskList := texts.map taskBlock } } ∧
    (displayTasks (JSValue.array tasks) w).2.page.taskList.length = tasks.length ∧
    ((displayTasks (JSValue.array tasks) w).2.page.taskList.filter Node.isTaskBlock).length
      = tasks.length ∧
    ∀ (i : Nat) (t d : String), texts[i]? = some (t, d) →
      (displayTasks (JSValue.array tasks) w).2.page.taskList[i]? =
        some (Node.element "div" "task-item"
          ("\n            <div class=\"task-title\">" ++ t ++
           "</div>\n            <div class=\"task-description\">" ++ d ++
           "</div>\n        ")) := by
  have hrun : displayTasks (JSValue.array tasks) w =
      (none, { w with page := { w.page with taskList := texts.map taskBlock } }) := by
    have hempty : tasks.isEmpty = false := by
      cases tasks with
      | nil => exact absurd rfl hne
      | cons a l => rfl
    simp only [displayTasks, JSValue.get, if_true, isZero_length, hempty,
      Bool.false_eq_true, if_false, JSValue.forEachItems]
    rw [appendTasks_tasks tasks texts htasks]
    simp [setTaskListHTML]
  have hlen : texts.length = tasks.length := htasks.length_eq.symm
  have hall : ∀ n ∈ texts.map taskBlock, Node.isTaskBlock n = true := by
    intro n hn
    obtain ⟨td, _, rfl⟩ := List.mem_map.1 hn
    simp only [taskBlock, Node.isTaskBlock, decide_eq_true_eq]
    decide
  rw [hrun]
  refine ⟨rfl, rfl, by simp [hlen], ?_, ?_⟩
  · simp only [List.filter_eq_self.2 hall, List.length_map, hlen]
  · intro i t d hi
    simp [List.getElem?_map, hi, taskBlock, taskMarkup]

/-- Witness of C1: two tasks, the first with a further property, over a list that
held a placeholder. -/
theorem displayTasks_renders_tasks_witness :
    (displayTasks (JSValue.array
        [JSValue.object [("id", JSValue.number "1"), ("title", JSValue.string "Buy milk"),
          ("description", JSValue.string "2%  gallon")],
         JSValue.object [("title", JSValue.string "b"), ("description", JSValue.string "")]])
      ⟨⟨[], [placeholder], ⟨"", ""⟩, ⟨"", ""⟩⟩, [], 0, []⟩).2.page.taskList =
      [taskBlock ("Buy milk", "2%  gallon"), taskBlock ("b", "")] :=
  (displayTasks_renders_tasks
    [JSValue.object [("id", JSValue.number "1"), ("title", JSValue.string "Buy milk"),
      ("description", JSValue.string "2%  gallon")],
     JSValue.object [("title", JSValue.string "b"), ("description", JSValue.string "")]]
    [("Buy milk", "2%  gallon"), ("b", "")]
    (List.Forall₂.cons ⟨_, rfl, by rfl, by rfl⟩
      (List.Forall₂.cons ⟨_, rfl, by rfl, by rfl⟩ List.Forall₂.nil))
    (by simp) ⟨⟨[], [placeholder], ⟨"", ""⟩, ⟨"", ""⟩⟩, [], 0, []⟩).2.1 ▸ rfl

/-- C2: for the empty array, and whatever the task list held before, `displayTasks`
completes and leaves the task list holding the `No tasks found.` placeholder and
nothing else: one placeholder, no task block. -/
theorem displayTasks_empty (w : World) :
    (displayTasks (JSValue.array []) w).1 = none ∧
    (displayTasks (JSValue.array []) w).2.page.taskList =
      [Node.parsed "<p>No tasks found.</p>"] ∧
    ((displayTasks (JSValue.array []) w).2.page.taskList.filter (fun n => n = placeholder)).length
      = 1 ∧
    ((displayTasks (JSValue.array []) w).2.page.taskList.filter Node.isTaskBlock).length = 0 ∧
    (displayTasks (JSValue.array []) w).2 =
      { w with page := { w.page with taskList := [placeholder] } } := by
  have hrun : displayTasks (JSValue.array []) w =
      (none, { w with page := { w.page with taskList := [placeholder] } }) := by
    simp only [displayTasks, JSValue.get, if_true, isZero_length, List.isEmpty_nil,
      setTaskListHTML, placeholder]
    simp
  rw [hrun]
  refine ⟨rfl, rfl, ?_, ?_, rfl⟩
  · simp [placeholder]
  · simp [placeholder, Node.isTaskBlock]

/-- C3 at a failing input: the GET is answered with status 500 on `strayPage`,
which shows no message and whose task list holds the block of a task titled
`<b class="success">done</b>`.  The error message is shown, alone and with the text
of the claim, but the selector of `showMessage` (line 96), finding no message,
takes the element of class `success` out of the task block: the task list is not
the one before the call. -/
theorem loadTasks_bad_status_stray :
    strayPage = fireTimer ⟨3000, 0⟩ (fireTimer ⟨3000, 1⟩
      (loadTasks oneStray (FetchOutcome.response 200 (Except.ok (JSValue.array [strayTask])))
        (loadTasks oneStray (FetchOutcome.response 200 (Except.ok (JSValue.array [])))
          freshPage))) ∧
    messages strayPage = [] ∧
    strayPage.page.taskList = [Node.element "div" "task-item" (taskMarkup strayTitle "d")] ∧
    messages (loadTasks oneStray (FetchOutcome.response 500 (Except.ok JSValue.null))
      strayPage) =
      [⟨2, "div", "error", "Error loading tasks: HTTP error! status: 500"⟩] ∧
    (loadTasks oneStray (FetchOutcome.response 500 (Except.ok JSValue.null))
      strayPage).page.taskList =
      [Node.pruned (Node.element "div" "task-item" (taskMarkup strayTitle "d"))] ∧
    (loadTasks oneStray (FetchOutcome.response 500 (Except.ok JSValue.null))
      strayPage).page.taskList ≠ strayPage.page.taskList := by
  refine ⟨by rfl, by rfl, by rfl, by decide, by decide, by decide⟩

/-- C5: when the POST is answered with a status in 200..299 and a body that parses
as JSON, whatever the form holds, `addTask` shows the success message
`Task added successfully!` as first child of the container, then resets the form
(each field takes its default value, the empty string for a field whose default
is empty), then calls `loadTasks`, which issues one GET to the tasks endpoint:
after the POST, the effects are the reset and that one GET. -/
theorem addTask_success (stray : StrayCount) (status : Nat) (newTask : JSValue) (w : World)
    (hstatus : 200 ≤ status ∧ status ≤ 299) :
    addTask stray (FetchOutcome.response status (Except.ok newTask)) w =
      loadTasksStart (resetForm
        (showMessage stray "Task added successfully!" "success" (addTaskStart w))) ∧
    (addTask stray (FetchOutcome.response status (Except.ok newTask)) w).page.container.head? =
      some ⟨w.nextUid, "div", "success", "Task added successfully!"⟩ ∧
    (addTask stray (FetchOutcome.response status (Except.ok newTask)) w).page.taskTitle =
      ⟨w.page.taskTitle.defaultValue, w.page.taskTitle.defaultValue⟩ ∧
    (addTask stray (FetchOutcome.response status (Except.ok newTask)) w).page.taskDescription =
      ⟨w.page.taskDescription.defaultValue, w.page.taskDescription.defaultValue⟩ ∧
    (w.page.taskTitle.defaultValue = "" → w.page.taskDescription.defaultValue = "" →
      (addTask stray (FetchOutcome.response status (Except.ok newTask)) w).page.taskTitle.value
        = "" ∧
      (addTask stray (FetchOutcome.response status (Except.ok newTask)) w).page.taskDescription.value
        = "") ∧
    (addTask stray (FetchOutcome.response status (Except.ok newTask)) w).effects =
      (addTaskStart w).effects ++ [Effect.formReset, Effect.fetch getRequest] ∧
    (addTask stray (FetchOutcome.response status (Except.ok newTask)) w).effects =
      w.effects ++ [Effect.preventDefault,
        Effect.fetch (postRequest ⟨w.page.taskTitle.value, w.page.taskDescription.value⟩),
        Effect.formReset, Effect.fetch ⟨"GET", "http://localhost:8080/api/tasks", [], none⟩] := by
  have hok : responseOk status = true := (responseOk_iff status).2 hstatus
  have hrun : addTask stray (FetchOutcome.response status (Except.ok newTask)) w =
      loadTasksStart (resetForm
        (showMessage stray "Task added successfully!" "success" (addTaskStart w))) := by
    simp [addTask, addTaskResume, hok]
  rw [hrun]
  refine ⟨rfl, rfl, rfl, rfl, ?_, ?_, ?_⟩
  · intro h1 h2
    exact ⟨h1, h2⟩
  · simp [loadTasksStart, resetForm, showMessage]
  · simp [loadTasksStart, resetForm, showMessage, addTaskStart, getRequest, API_BASE_URL]

/-- Witness of C5: status 201 with the created task as the body. -/
theorem addTask_success_witness :
    (addTask noStray (FetchOutcome.response 201 (Except.ok (JSValue.object
        [("id", JSValue.number "3"), ("title", JSValue.string "Buy milk"),
          ("description", JSValue.string "2%  gallon")])))
      ⟨⟨[], [placeholder], ⟨"Buy milk", ""⟩, ⟨"2%  gallon", ""⟩⟩,
        [], 0, []⟩).page.taskTitle = ⟨"", ""⟩ :=
  (addTask_success noStray 201 (JSValue.object
      [("id", JSValue.number "3"), ("title", JSValue.string "Buy milk"),
        ("description", JSValue.string "2%  gallon")])
    ⟨⟨[], [placeholder], ⟨"Buy milk", ""⟩, ⟨"2%  gallon", ""⟩⟩, [], 0, []⟩
    (by decide)).2.2.1

/-- C6 at a failing input: the POST is answered with status 500 on `strayPage`,
which shows no message and whose task list holds the block of a task titled
`<b class="success">done</b>`.  The form keeps its values, nothing is reset, no GET
is issued and the error message is shown alone, but the selector of `showMessage`
(line 96), finding no message, takes the element of class `success` out of the
task block: the task list is not the one before the call. -/
theorem addTask_failure_stray :
    strayPage = fireTimer ⟨3000, 0⟩ (fireTimer ⟨3000, 1⟩
      (loadTasks oneStray (FetchOutcome.response 200 (Except.ok (JSValue.array [strayTask])))
        (loadTasks oneStray (FetchOutcome.response 200 (Except.ok (JSValue.array [])))
          freshPage))) ∧
    messages strayPage = [] ∧
    (addTask oneStray (FetchOutcome.response 500 (Except.ok JSValue.null))
      strayPage).page.taskTitle = strayPage.page.taskTitle ∧
    (addTask oneStray (FetchOutcome.response 500 (Except.ok JSValue.null))
      strayPage).page.taskDescription = strayPage.page.taskDescription ∧
    (addTask oneStray (FetchOutcome.response 500 (Except.ok JSValue.null))
      strayPage).effects =
      strayPage.effects ++ [Effect.preventDefault,
        Effect.fetch (postRequest ⟨"Buy milk", "2%  gallon"⟩),
        Effect.consoleError "Error adding task:" ⟨"HTTP error! status: 500"⟩] ∧
    messages (addTask oneStray (FetchOutcome.response 500 (Except.ok JSValue.null))
      strayPage) =
      [⟨2, "div", "error", "Error adding task: HTTP error! status: 500"⟩] ∧
    strayPage.page.taskList = [Node.element "div" "task-item" (taskMarkup strayTitle "d")] ∧
    (addTask oneStray (FetchOutcome.response 500 (Except.ok JSValue.null))
      strayPage).page.taskList =
      [Node.pruned (Node.element "div" "task-item" (taskMarkup strayTitle "d"))] ∧
    (addTask oneStray (FetchOutcome.response 500 (Except.ok JSValue.null))
      strayPage).page.taskList ≠ strayPage.page.taskList := by
  refine ⟨by rfl, by rfl, by rfl, by rfl, by decide, by decide, by rfl, by decide, by decide⟩

/-- C7: from a page with at most one message displayed, after a non-empty
sequence of `showMessage` calls of type `success` or `error` exactly one message
is displayed; it is the first child of the container and carries the text and
the class of the last call.  In particular a success `m1` followed by an error
`m2` leaves the error `m2` as the only message. -/
theorem showMessages_one_message (stray : StrayCount) (calls : List (String × String))
    (w : World)
    (hcalls : ∀ c ∈ calls, c.2 = "success" ∨ c.2 = "error") (hne : calls ≠ [])
    (hw : (messages w).length ≤ 1) :
    messages (showMessages stray calls w) =
      [⟨w.nextUid + calls.length - 1, "div", (calls.getLast hne).2, (calls.getLast hne).1⟩] ∧
    (showMessages stray calls w).page.container.head? =
      some ⟨w.nextUid + calls.length - 1, "div", (calls.getLast hne).2,
        (calls.getLast hne).1⟩ ∧
    ∀ m1 m2 : String,
      messages (showMessage stray m2 "error" (showMessage stray m1 "success" w)) =
        [⟨w.nextUid + 1, "div", "error", m2⟩] := by
  have hsplit := List.dropLast_append_getLast hne
  have hinit : ∀ c ∈ calls.dropLast, c.2 = "success" ∨ c.2 = "error" :=
    fun c hc => hcalls c (List.mem_of_mem_dropLast hc)
  have hlast := hcalls _ (List.getLast_mem hne)
  have hrun : showMessages stray calls w =
      showMessage stray (calls.getLast hne).1 (calls.getLast hne).2 (showMessages stray calls.dropLast w) := by
    conv_lhs => rw [← hsplit]
    exact showMessages_append _ _ _ _
  have huid : (showMessages stray calls.dropLast w).nextUid = w.nextUid + calls.length - 1 := by
    rw [nextUid_showMessages, List.length_dropLast]
    have : 0 < calls.length := List.length_pos.2 hne
    omega
  refine ⟨?_, ?_, ?_⟩
  · rw [hrun, messages_showMessage_single _ _ _ _ hlast
      (messages_showMessages_le _ _ hinit w hw), huid]
  · rw [hrun]
    simp only [showMessage, List.head?_cons, huid]
  · intro m1 m2
    have h1 : (messages (showMessage stray m1 "success" w)).length ≤ 1 := by
      rw [messages_showMessage_single stray m1 "success" w (Or.inl rfl) hw]; simp
    rw [messages_showMessage_single stray m2 "error" _ (Or.inr rfl) h1]
    rfl

/-- Witness of C7: three calls over a page showing an old error between other
elements. -/
theorem showMessages_one_message_witness :
    messages (showMessages noStray [("a", "success"), ("b", "error"), ("c", "success")]
      ⟨⟨[⟨1, "h1", "", "Tasks"⟩, ⟨2, "div", "error", "old"⟩, ⟨3, "div", "list", ""⟩],
        [], ⟨"", ""⟩, ⟨"", ""⟩⟩, [], 4, []⟩) =
      [⟨6, "div", "success", "c"⟩] :=
  (showMessages_one_message noStray [("a", "success"), ("b", "error"), ("c", "success")]
    ⟨⟨[⟨1, "h1", "", "Tasks"⟩, ⟨2, "div", "error", "old"⟩, ⟨3, "div", "list", ""⟩],
      [], ⟨"", ""⟩, ⟨"", ""⟩⟩, [], 4, []⟩
    (by decide) (by decide) (by decide)).1

/-- C8: every `showMessage` call schedules exactly one timer, of delay 3000 ms, bound
to the message it creates.  When a timer fires, in whatever state, nothing but the
container changes; if its message is still in the container that element is
removed, and if it is no longer there the page is left as it is.  Firing the timer
right after the call removes exactly the new message.  With fresh element
identities, firing the timer of a success or error message after a later
`showMessage` call has replaced that message changes nothing of the page: the
later message stays displayed. -/
theorem showMessage_timer (stray : StrayCount) (message type : String) (w : World) :
    (showMessage stray message type w).timers = w.timers ++ [⟨3000, w.nextUid⟩] ∧
    (showMessage stray message type w).page.container.head? =
      some ⟨w.nextUid, "div", type, message⟩ ∧
    (∀ (t : Timer) (w2 : World),
      (fireTimer t w2).page.taskList = w2.page.taskList ∧
      (fireTimer t w2).page.taskTitle = w2.page.taskTitle ∧
      (fireTimer t w2).page.taskDescription = w2.page.taskDescription ∧
      (fireTimer t w2).effects = w2.effects ∧
      (fireTimer t w2).timers = w2.timers.erase t ∧
      ((∃ e ∈ w2.page.container, e.uid = t.target) →
        (fireTimer t w2).page.container =
          w2.page.container.eraseP (fun e => e.uid = t.target)) ∧
      ((∀ e ∈ w2.page.container, e.uid ≠ t.target) → (fireTimer t w2).page = w2.page)) ∧
    (fireTimer ⟨3000, w.nextUid⟩ (showMessage stray message type w)).page.container =
      w.page.container.eraseP Elem.isMessage ∧
    (FreshUids w → (type = "success" ∨ type = "error") → ∀ message2 type2 : String,
      (fireTimer ⟨3000, w.nextUid⟩
        (showMessage stray message2 type2 (showMessage stray message type w))).page =
        (showMessage stray message2 type2 (showMessage stray message type w)).page ∧
      (fireTimer ⟨3000, w.nextUid⟩
        (showMessage stray message2 type2 (showMessage stray message type w))).page.container.head? =
        some ⟨w.nextUid + 1, "div", type2, message2⟩) := by
  have hfire : ∀ (t : Timer) (w2 : World),
      (∀ e ∈ w2.page.container, e.uid ≠ t.target) → (fireTimer t w2).page = w2.page := by
    intro t w2 h
    have hany : (w2.page.container.any fun e => decide (e.uid = t.target)) = false := by
      simpa [List.any_eq_false] using h
    simp [fireTimer, timerCallback, hany]
  refine ⟨rfl, rfl, ?_, ?_, ?_⟩
  · intro t w2
    refine ⟨?_, ?_, ?_, ?_, ?_, ?_, hfire t w2⟩
    · simp only [fireTimer, timerCallback]; split <;> rfl
    · simp only [fireTimer, timerCallback]; split <;> rfl
    · simp only [fireTimer, timerCallback]; split <;> rfl
    · simp only [fireTimer, timerCallback]; split <;> rfl
    · simp only [fireTimer, timerCallback]; split <;> rfl
    · rintro ⟨e, he, hu⟩
      have hany : (w2.page.container.any fun e => decide (e.uid = t.target)) = true := by
        simp only [List.any_eq_true, decide_eq_true_eq]
        exact ⟨e, he, hu⟩
      simp [fireTimer, timerCallback, hany]
  · simp [fireTimer, timerCallback, showMessage]
  · intro hfresh htype message2 type2
    have hnew : Elem.isMessage ⟨w.nextUid, "div", type, message⟩ = true := by
      rcases htype with rfl | rfl
      · exact isMessage_success _ _ _
      · exact isMessage_error _ _ _
    have hrest : ∀ e ∈ w.page.container.eraseP Elem.isMessage, e.uid ≠ w.nextUid := by
      intro e he
      exact Nat.ne_of_lt (hfresh e (List.mem_of_mem_eraseP he))
    have hpage : (showMessage stray message2 type2 (showMessage stray message type w)).page.container =
        ⟨w.nextUid + 1, "div", type2, message2⟩ :: w.page.container.eraseP Elem.isMessage := by
      simp [showMessage, hnew]
    have hgone : ∀ e ∈ (showMessage stray message2 type2 (showMessage stray message type w)).page.container,
        e.uid ≠ (⟨3000, w.nextUid⟩ : Timer).target := by
      intro e he
      rw [hpage] at he
      rcases List.mem_cons.1 he with rfl | he
      · simp
      · exact hrest e he
    rw [hfire _ _ hgone]
    exact ⟨rfl, by rw [hpage]; rfl⟩

/-- Witness of C8: a success message is replaced by an error message before its
timer fires. -/
theorem showMessage_timer_witness :
    (fireTimer ⟨3000, 4⟩ (showMessage noStray "failed" "error" (showMessage noStray "saved" "success"
      ⟨⟨[⟨1, "h1", "", "Tasks"⟩, ⟨3, "div", "list", ""⟩], [], ⟨"", ""⟩, ⟨"", ""⟩⟩,
        [], 4, []⟩))).page.container.head? = some ⟨5, "div", "error", "failed"⟩ :=
  ((showMessage_timer noStray "saved" "success"
    ⟨⟨[⟨1, "h1", "", "Tasks"⟩, ⟨3, "div", "list", ""⟩], [], ⟨"", ""⟩, ⟨"", ""⟩⟩,
      [], 4, []⟩).2.2.2.2
    (by simp [FreshUids]) (by decide) "failed" "error").2

/-- C9 at a failing input: the POST is answered with status 201 on `strayPage`,
which shows no message and whose task list holds the block of a task titled
`<b class="success">done</b>`.  Whatever the body, the run is the same, and when
the POST has settled only the GET of the reload has been issued; yet the task list
is already not the one before the call: the selector of `showMessage` (line 96),
finding no message, has taken the element of class `success` out of the task
block.  The list is changed by `showMessage`, not by the `displayTasks` of the
reload alone. -/
theorem addTask_success_stray :
    strayPage = fireTimer ⟨3000, 0⟩ (fireTimer ⟨3000, 1⟩
      (loadTasks oneStray (FetchOutcome.response 200 (Except.ok (JSValue.array [strayTask])))
        (loadTasks oneStray (FetchOutcome.response 200 (Except.ok (JSValue.array [])))
          freshPage))) ∧
    messages strayPage = [] ∧
    addTask oneStray (FetchOutcome.response 201 (Except.ok strayTask)) strayPage =
      addTask oneStray (FetchOutcome.response 200 (Except.ok JSValue.null)) strayPage ∧
    (addTask oneStray (FetchOutcome.response 201 (Except.ok strayTask)) strayPage).effects =
      strayPage.effects ++ [Effect.preventDefault,
        Effect.fetch (postRequest ⟨"Buy milk", "2%  gallon"⟩),
        Effect.formReset, Effect.fetch getRequest] ∧
    strayPage.page.taskList = [Node.element "div" "task-item" (taskMarkup strayTitle "d")] ∧
    (addTask oneStray (FetchOutcome.response 201 (Except.ok strayTask)) strayPage).page.taskList =
      [Node.pruned (Node.element "div" "task-item" (taskMarkup strayTitle "d"))] ∧
    (addTask oneStray (FetchOutcome.response 201 (Except.ok strayTask)) strayPage).page.taskList
      ≠ strayPage.page.taskList := by
  refine ⟨by rfl, by rfl, by rfl, by decide, by rfl, by decide, by decide⟩

/-- Counterexample to C10: a response of status 200 whose body is the JSON object
`{}`, received while the list shows one task, on a page where no markup makes an
element of class `error` or `success`.  `displayTasks` empties the list and then
throws at `tasks.forEach`, so an error message is shown although the task list is
no longer the one before the call. -/
theorem loadTasks_not_all_or_nothing :
    (messages ⟨⟨[], [taskBlock ("a", "b")], ⟨"", ""⟩, ⟨"", ""⟩⟩, [], 0, []⟩).length ≤ 1 ∧
    (messages (loadTasks noStray (FetchOutcome.response 200 (Except.ok (JSValue.object [])))
        ⟨⟨[], [taskBlock ("a", "b")], ⟨"", ""⟩, ⟨"", ""⟩⟩, [], 0, []⟩)).map
      (fun m => m.className) = ["error"] ∧
    (loadTasks noStray (FetchOutcome.response 200 (Except.ok (JSValue.object [])))
        ⟨⟨[], [taskBlock ("a", "b")], ⟨"", ""⟩, ⟨"", ""⟩⟩, [], 0, []⟩).page.taskList = [] ∧
    ¬ AllOrNothing noStray (FetchOutcome.response 200 (Except.ok (JSValue.object [])))
        ⟨⟨[], [taskBlock ("a", "b")], ⟨"", ""⟩, ⟨"", ""⟩⟩, [], 0, []⟩ := by
  have hmsg : messages (loadTasks noStray
        (FetchOutcome.response 200 (Except.ok (JSValue.object [])))
        ⟨⟨[], [taskBlock ("a", "b")], ⟨"", ""⟩, ⟨"", ""⟩⟩, [], 0, []⟩) =
      [⟨0, "div", "error", "Error loading tasks: tasks.forEach is not a function"⟩] := by
    decide
  have hlist : (loadTasks noStray (FetchOutcome.response 200 (Except.ok (JSValue.object [])))
        ⟨⟨[], [taskBlock ("a", "b")], ⟨"", ""⟩, ⟨"", ""⟩⟩, [], 0, []⟩).page.taskList = [] := by
    decide
  refine ⟨by decide, by rw [hmsg]; rfl, hlist, ?_⟩
  rintro ⟨m, hm, h⟩
  rw [hmsg] at hm
  have hm1 : m = ⟨0, "div", "error", "Error loading tasks: tasks.forEach is not a function"⟩ :=
    (List.cons.inj hm).1.symm
  rcases h with ⟨hclass, _⟩ | ⟨_, hsame⟩
  · rw [hm1] at hclass
    exact absurd hclass (by decide)
  · rw [hlist] at hsame
    exact absurd hsame (by decide)

/-- C10, amended: from a state with at most one message displayed, every run of
`loadTasks` leaves exactly one message, the first child of the container: an error
message carrying the message of the failure when the request fails (rejected
`fetch`, status outside 200..299, body that does not parse), the success message
when `displayTasks` completes on the parsed body, an error message carrying the
message of the exception when it throws.  When `displayTasks` throws it leaves the
list emptied if the body has no usable `length` or `forEach`, and holding the
blocks of the tasks before the first one it cannot render otherwise.  Whenever the
selector of `showMessage` takes nothing out of the list (a message is displayed, or
the list holds no element of class `error` or `success`), the task list after a
failed request is the one before the call and after a parsed body it is the one
`displayTasks` leaves.  Hence, under that proviso, the run is all-or-nothing
whenever `displayTasks` does not throw, as for every array of task objects with
string title and description. -/
theorem loadTasks_outcomes (stray : StrayCount) (outcome : FetchOutcome) (w : World)
    (hw : (messages w).length ≤ 1) :
    (∃ m, messages (loadTasks stray outcome w) = [m] ∧
      (loadTasks stray outcome w).page.container.head? = some m) ∧
    (∀ error, outcome.failure = some error →
      messages (loadTasks stray outcome w) =
        [⟨w.nextUid, "div", "error", "Error loading tasks: " ++ error.message⟩] ∧
      ((messages w ≠ [] ∨ Quiet stray w.page.taskList) →
        (loadTasks stray outcome w).page.taskList = w.page.taskList)) ∧
    (∀ status tasks, outcome = FetchOutcome.response status (Except.ok tasks) →
      (200 ≤ status ∧ status ≤ 299) →
      ((messages w ≠ [] ∨ Quiet stray (displayTasks tasks w).2.page.taskList) →
        (loadTasks stray outcome w).page.taskList = (displayTasks tasks w).2.page.taskList) ∧
      ((displayTasks tasks w).1 = none →
        messages (loadTasks stray outcome w) =
          [⟨w.nextUid, "div", "success", "Tasks loaded successfully!"⟩]) ∧
      (∀ error, (displayTasks tasks w).1 = some error →
        messages (loadTasks stray outcome w) =
          [⟨w.nextUid, "div", "error", "Error loading tasks: " ++ error.message⟩])) ∧
    (∀ (tasks : JSValue) (error : JSError), tasks.get Key.length = Except.error error →
      displayTasks tasks w = (some error, { w with page := { w.page with taskList := [] } })) ∧
    (∀ (tasks len : JSValue) (error : JSError), tasks.get Key.length = Except.ok len →
      len.isZero = false → tasks.forEachItems = Except.error error →
      displayTasks tasks w = (some error, { w with page := { w.page with taskList := [] } })) ∧
    (∀ (items : List JSValue) (texts : List (String × String)) (bad : JSValue)
      (rest : List JSValue) (error : JSError),
      List.Forall₂ (fun v td => IsTask v td.1 td.2) items texts →
      taskHTML bad = Except.error error →
      displayTasks (JSValue.array (items ++ bad :: rest)) w =
        (some error, { w with page := { w.page with taskList := texts.map taskBlock } })) ∧
    ((∀ status tasks, outcome = FetchOutcome.response status (Except.ok tasks) →
        (200 ≤ status ∧ status ≤ 299) → (displayTasks tasks w).1 = none) →
      (messages w ≠ [] ∨ (Quiet stray w.page.taskList ∧
        ∀ status tasks, outcome = FetchOutcome.response status (Except.ok tasks) →
          Quiet stray (displayTasks tasks w).2.page.taskList)) →
      AllOrNothing stray outcome w) ∧
    (∀ (status : Nat) (items : List JSValue) (texts : List (String × String)),
      outcome = FetchOutcome.response status (Except.ok (JSValue.array items)) →
      (200 ≤ status ∧ status ≤ 299) →
      List.Forall₂ (fun v td => IsTask v td.1 td.2) items texts →
      (messages w ≠ [] ∨ (stray "<p>No tasks found.</p>" = 0 ∧
        ∀ td ∈ texts, stray (taskMarkup td.1 td.2) = 0)) →
      AllOrNothing stray outcome w) := by
  have hfail : ∀ error, outcome.failure = some error →
      messages (loadTasks stray outcome w) =
        [⟨w.nextUid, "div", "error", "Error loading tasks: " ++ error.message⟩] ∧
      (loadTasks stray outcome w).page.container.head? =
        some ⟨w.nextUid, "div", "error", "Error loading tasks: " ++ error.message⟩ ∧
      ((messages w ≠ [] ∨ Quiet stray w.page.taskList) →
        (loadTasks stray outcome w).page.taskList = w.page.taskList) := by
    intro error h
    rw [loadTasks_of_failure stray outcome error w h]
    refine ⟨(loadTasksCatch_spec stray error (loadTasksStart w) hw).1, rfl, ?_⟩
    intro hq
    exact taskList_showMessage stray _ _ _ hq
  have hmsgs : ∀ tasks : JSValue, messages { (displayTasks tasks w).2 with
      effects := w.effects ++ [Effect.fetch getRequest] } = messages w := by
    intro tasks
    simp only [messages, container_displayTasks]
  have hle : ∀ tasks : JSValue, (messages { (displayTasks tasks w).2 with
      effects := w.effects ++ [Effect.fetch getRequest] }).length ≤ 1 := by
    intro tasks
    rw [hmsgs tasks]; exact hw
  have hcalm : ∀ tasks : JSValue,
      (messages w ≠ [] ∨ Quiet stray (displayTasks tasks w).2.page.taskList) →
      (messages { (displayTasks tasks w).2 with
          effects := w.effects ++ [Effect.fetch getRequest] } ≠ [] ∨
        Quiet stray ({ (displayTasks tasks w).2 with
          effects := w.effects ++ [Effect.fetch getRequest] } : World).page.taskList) := by
    intro tasks hq
    rw [hmsgs tasks]; exact hq
  have hdone : ∀ status tasks, responseOk status = true → (displayTasks tasks w).1 = none →
      messages (loadTasks stray (FetchOutcome.response status (Except.ok tasks)) w) =
        [⟨w.nextUid, "div", "success", "Tasks loaded successfully!"⟩] ∧
      (loadTasks stray (FetchOutcome.response status (Except.ok tasks)) w).page.container.head? =
        some ⟨w.nextUid, "div", "success", "Tasks loaded successfully!"⟩ ∧
      ((messages w ≠ [] ∨ Quiet stray (displayTasks tasks w).2.page.taskList) →
        (loadTasks stray (FetchOutcome.response status (Except.ok tasks)) w).page.taskList =
          (displayTasks tasks w).2.page.taskList) := by
    intro status tasks hok h
    rw [loadTasks_of_completed stray status tasks w hok h]
    refine ⟨?_, ?_, ?_⟩
    · rw [messages_showMessage_single _ _ _ _ (Or.inl rfl) (hle tasks)]
      simp only [nextUid_displayTasks]
    · simp only [showMessage, List.head?_cons, nextUid_displayTasks]
    · intro hq
      exact taskList_showMessage stray _ _ _ (hcalm tasks hq)
  have hthrown : ∀ status tasks error, responseOk status = true →
      (displayTasks tasks w).1 = some error →
      messages (loadTasks stray (FetchOutcome.response status (Except.ok tasks)) w) =
        [⟨w.nextUid, "div", "error", "Error loading tasks: " ++ error.message⟩] ∧
      (loadTasks stray (FetchOutcome.response status (Except.ok tasks)) w).page.container.head? =
        some ⟨w.nextUid, "div", "error", "Error loading tasks: " ++ error.message⟩ ∧
      ((messages w ≠ [] ∨ Quiet stray (displayTasks tasks w).2.page.taskList) →
        (loadTasks stray (FetchOutcome.response status (Except.ok tasks)) w).page.taskList =
          (displayTasks tasks w).2.page.taskList) := by
    intro status tasks error hok h
    rw [loadTasks_of_thrown stray status tasks error w hok h]
    refine ⟨?_, ?_, ?_⟩
    · rw [(loadTasksCatch_spec stray error _ (hle tasks)).1]
      simp only [nextUid_displayTasks]
    · simp only [loadTasksCatch, showMessage, List.head?_cons, nextUid_displayTasks]
    · intro hq
      exact taskList_showMessage stray _ _ _ (hcalm tasks hq)
  have hall : (∀ status tasks, outcome = FetchOutcome.response status (Except.ok tasks) →
        (200 ≤ status ∧ status ≤ 299) → (displayTasks tasks w).1 = none) →
      (messages w ≠ [] ∨ (Quiet stray w.page.taskList ∧
        ∀ status tasks, outcome = FetchOutcome.response status (Except.ok tasks) →
          Quiet stray (displayTasks tasks w).2.page.taskList)) →
      AllOrNothing stray outcome w := by
    intro hcomplete hquiet
    cases hf : outcome.failure with
    | some error =>
      refine ⟨_, (hfail error hf).1, Or.inr ⟨rfl, (hfail error hf).2.2 ?_⟩⟩
      rcases hquiet with h | h
      · exact Or.inl h
      · exact Or.inr h.1
    | none =>
      cases outcome with
      | rejected e => simp [FetchOutcome.failure] at hf
      | response status json =>
        by_cases hok : responseOk status = true
        · cases json with
          | error e => simp [FetchOutcome.failure, hok] at hf
          | ok tasks =>
            have hnone := hcomplete status tasks rfl ((responseOk_iff status).1 hok)
            refine ⟨_, (hdone status tasks hok hnone).1,
              Or.inl ⟨rfl, rfl, status, tasks, rfl, (hdone status tasks hok hnone).2.2 ?_⟩⟩
            rcases hquiet with h | h
            · exact Or.inl h
            · exact Or.inr (h.2 status tasks rfl)
        · simp only [Bool.not_eq_true] at hok
          simp [FetchOutcome.failure, hok] at hf
  refine ⟨?_, fun error h => ⟨(hfail error h).1, (hfail error h).2.2⟩, ?_, ?_, ?_, ?_, hall, ?_⟩
  · cases hf : outcome.failure with
    | some error => exact ⟨_, (hfail error hf).1, (hfail error hf).2.1⟩
    | none =>
      cases outcome with
      | rejected e => simp [FetchOutcome.failure] at hf
      | response status json =>
        by_cases hok : responseOk status = true
        · cases json with
          | error e => simp [FetchOutcome.failure, hok] at hf
          | ok tasks =>
            cases hd : (displayTasks tasks w).1 with
            | none => exact ⟨_, (hdone status tasks hok hd).1, (hdone status tasks hok hd).2.1⟩
            | some error =>
              exact ⟨_, (hthrown status tasks error hok hd).1,
                (hthrown status tasks error hok hd).2.1⟩
        · simp only [Bool.not_eq_true] at hok
          simp [FetchOutcome.failure, hok] at hf
  · intro status tasks hout hstatus
    subst hout
    have hok : responseOk status = true := (responseOk_iff status).2 hstatus
    refine ⟨?_, fun h => (hdone status tasks hok h).1,
      fun error h => (hthrown status tasks error hok h).1⟩
    intro hq
    cases hd : (displayTasks tasks w).1 with
    | none => exact (hdone status tasks hok hd).2.2 hq
    | some error => exact (hthrown status tasks error hok hd).2.2 hq
  · intro tasks error hlen
    simp [displayTasks, hlen, setTaskListHTML]
  · intro tasks len error hlen hzero hitems
    simp [displayTasks, hlen, hzero, hitems, setTaskListHTML]
  · intro items texts bad rest error hitems hbad
    have hempty : (items ++ bad :: rest).isEmpty = false := by
      cases items <;> rfl
    simp only [displayTasks, JSValue.get, if_true, isZero_length, hempty,
      Bool.false_eq_true, if_false, JSValue.forEachItems]
    rw [appendTasks_thrown items texts bad rest error hitems hbad]
    simp [setTaskListHTML]
  · intro status items texts hout hstatus htasks hquiet
    subst hout
    have hok : responseOk status = true := (responseOk_iff status).2 hstatus
    have hnone := displayTasks_completes_of_tasks items texts htasks w
    have hq : messages w ≠ [] ∨
        Quiet stray (displayTasks (JSValue.array items) w).2.page.taskList := by
      rcases hquiet with h | h
      · exact Or.inl h
      · refine Or.inr ?_
        rw [taskList_displayTasks_of_tasks items texts htasks w]
        split
        · intro node hnode
          rw [List.mem_singleton.1 hnode]
          exact ⟨rfl, h.1⟩
        · exact quiet_taskBlocks stray texts h.2
    exact ⟨_, (hdone status (JSValue.array items) hok hnone).1,
      Or.inl ⟨rfl, rfl, status, JSValue.array items, rfl,
        (hdone status (JSValue.array items) hok hnone).2.2 hq⟩⟩

/-- Witness of C10, amended: a response of status 200 with one task is
all-or-nothing, and an array whose second element is `null` leaves the block of
the first task in the list when `displayTasks` throws. -/
theorem loadTasks_outcomes_witness :
    AllOrNothing noStray (FetchOutcome.response 200 (Except.ok (JSValue.array
        [JSValue.object [("title", JSValue.string "a"), ("description", JSValue.string "b")]])))
      ⟨⟨[], [placeholder], ⟨"", ""⟩, ⟨"", ""⟩⟩, [], 0, []⟩ ∧
    displayTasks (JSValue.array
        ([JSValue.object [("title", JSValue.string "a"), ("description", JSValue.string "b")]] ++
          JSValue.null ::
          [JSValue.object [("title", JSValue.string "c"), ("description", JSValue.string "d")]]))
      ⟨⟨[], [placeholder], ⟨"", ""⟩, ⟨"", ""⟩⟩, [], 0, []⟩ =
      (some (cannotRead "null" Key.title),
        ⟨⟨[], [taskBlock ("a", "b")], ⟨"", ""⟩, ⟨"", ""⟩⟩, [], 0, []⟩) :=
  ⟨(loadTasks_outcomes noStray (FetchOutcome.response 200 (Except.ok (JSValue.array
        [JSValue.object [("title", JSValue.string "a"), ("description", JSValue.string "b")]])))
    ⟨⟨[], [placeholder], ⟨"", ""⟩, ⟨"", ""⟩⟩, [], 0, []⟩ (by decide)).2.2.2.2.2.2.2
    200 [JSValue.object [("title", JSValue.string "a"), ("description", JSValue.string "b")]]
    [("a", "b")] rfl (by decide) (List.Forall₂.cons ⟨_, rfl, by rfl, by rfl⟩ List.Forall₂.nil)
    (Or.inr ⟨rfl, by simp [noStray]⟩),
   (loadTasks_outcomes noStray (FetchOutcome.rejected ⟨"Failed to fetch"⟩)
    ⟨⟨[], [placeholder], ⟨"", ""⟩, ⟨"", ""⟩⟩, [], 0, []⟩ (by decide)).2.2.2.2.2.1
    [JSValue.object [("title", JSValue.string "a"), ("description", JSValue.string "b")]]
    [("a", "b")] JSValue.null
    [JSValue.object [("title", JSValue.string "c"), ("description", JSValue.string "d")]]
    (cannotRead "null" Key.title)
    (List.Forall₂.cons ⟨_, rfl, by rfl, by rfl⟩ List.Forall₂.nil) rfl⟩

/-- C4: whatever strings the two form fields hold, the call of `addTask` issues
one POST to the tasks endpoint, with header `Content-Type: application/json`, whose
body is `JSON.stringify` of the object with the property `title` first and
`description` second; the values go in verbatim, so that parsing the body as JSON
gives back exactly the title and the description of the form.  For `Buy milk` and
`2%  gallon` the body is the text of the specification. -/
theorem addTask_post_body (w : World) :
    (addTaskStart w).effects = w.effects ++ [Effect.preventDefault,
      Effect.fetch ⟨"POST", "http://localhost:8080/api/tasks",
        [("Content-Type", "application/json")],
        some (JSONstringify ⟨w.page.taskTitle.value, w.page.taskDescription.value⟩)⟩] ∧
    (addTaskStart w).page = w.page ∧
    JSONstringify ⟨w.page.taskTitle.value, w.page.taskDescription.value⟩ =
      "\x7b\"title\":" ++ quoteJSONString w.page.taskTitle.value ++ ",\"description\":" ++
        quoteJSONString w.page.taskDescription.value ++ "\x7d" ∧
    JSONparse (JSONstringify ⟨w.page.taskTitle.value, w.page.taskDescription.value⟩) =
      some (Json.object [("title", Json.string w.page.taskTitle.value),
        ("description", Json.string w.page.taskDescription.value)]) ∧
    JSONstringify ⟨"Buy milk", "2%  gallon"⟩ =
      "\x7b\"title\":\"Buy milk\",\"description\":\"2%  gallon\"\x7d" := by
  refine ⟨rfl, rfl, ?_, JSONparse_stringify _, by decide⟩
  have h1 : quoteJSONString "title" = "\"title\"" := by decide
  have h2 : quoteJSONString "description" = "\"description\"" := by decide
  simp only [JSONstringify, h1, h2]
  apply String.ext
  simp [String.data_append]

end TaskClient
